import Mathlib

/-!
Shallow embedding of `src/model.py` (NetLogo Rebellion model replication).

Modelling conventions:
* Python floats are modelled as `ℚ` (every value `random.random()` produces and
  every arithmetic the engine performs on them is rational); the single
  transcendental computation (`math.exp` inside `__determine_behaviour`) is
  modelled exactly over `ℝ` through the predicate `ActQueryValid` that
  constrains the boolean outcome recorded for each Rule-A decision.
* Python ints are `ℤ` (`jail_term`, `max_jail_term`), with `randrange`
  failing on a non-positive bound exactly as Python does.
* The process-wide random generator is modelled by streams of draws
  (`Streams`); `randrange(n)` consumes a draw `d` and yields `d % n`, so the
  set of behaviours reachable over all streams is exactly the support of the
  Python program's distribution.
* `dict` / `defaultdict(list)` are association lists with lookup helpers
  (`amGet`, with a `[]` default for the `defaultdict`); mutation of a shared
  `Agent` object is modelled by an id-keyed map `agents` so that both spatial
  views alias the same agent state, as the Python objects do.
* `print`-based debugging and CSV export are I/O no-ops and are omitted.
-/

namespace Rebellion

/-- Python's built-in `round`: round half to even (banker's rounding). -/
def pyRound (q : ℚ) : ℤ :=
  let f := ⌊q⌋
  let r := q - (f : ℚ)
  if r < 1/2 then f
  else if r > 1/2 then f + 1
  else if f % 2 = 0 then f else f + 1

abbrev Coord := ℕ × ℕ

/-- A reference to a turtle: the identity by which the Python objects hash and
compare (`Agent.__eq__` / `Cop.__eq__` use only the id and the class). -/
inductive TRef where
  | agent (id : ℕ)
  | cop (id : ℕ)
deriving DecidableEq, Repr

/-- Python exceptions the engine can raise. -/
inductive PyErr where
  | typeError (msg : String)
  | valueError (msg : String)
  | keyError
  | zeroDivisionError
deriving DecidableEq, Repr

/-- Python values that can be passed to `setup` and the update methods. -/
inductive PyVal where
  | int (n : ℤ)
  | float (q : ℚ)
  | bool (b : Bool)
deriving DecidableEq, Repr

/-- `isinstance(v, int)`: in Python, `bool` is a subclass of `int`. -/
def PyVal.isInt : PyVal → Bool
  | .int _ => true
  | .bool _ => true
  | .float _ => false

/-- `isinstance(v, float)`: Python ints are not floats. -/
def PyVal.isFloat : PyVal → Bool
  | .float _ => true
  | _ => false

/-- `isinstance(v, bool)`. -/
def PyVal.isBool : PyVal → Bool
  | .bool _ => true
  | _ => false

/-- The numeric value of a Python value (`True == 1`, `False == 0`). -/
def PyVal.toQ : PyVal → ℚ
  | .int n => (n : ℚ)
  | .float q => q
  | .bool b => if b then 1 else 0

/-- The integer content of a Python value (used after an `int` check passed). -/
def PyVal.toZ : PyVal → ℤ
  | .int n => n
  | .float q => ⌊q⌋
  | .bool b => if b then 1 else 0

/-- Truthiness of a Python value (`if aggregate_greivance:`). -/
def PyVal.truthy : PyVal → Bool
  | .int n => decide (n ≠ 0)
  | .float q => decide (q ≠ 0)
  | .bool b => b

/-- The `expected_type` argument of `RebellionManager.__validate_value`. -/
inductive PyType where
  | int
  | float
deriving DecidableEq, Repr

def isinstance (v : PyVal) : PyType → Bool
  | .int => v.isInt
  | .float => v.isFloat

def PyType.name : PyType → String
  | .int => "int"
  | .float => "float"

/-- `RebellionManager.__validate_value`: type check first (TypeError), then the
inclusive range check (ValueError). -/
def validate_value (nm : String) (value : PyVal) (expected : PyType)
    (min_value max_value : ℚ) : Except PyErr Unit :=
  if ¬ (isinstance value expected) then
    .error (.typeError (nm ++ " must be a " ++ expected.name ++ "."))
  else if ¬ (min_value ≤ value.toQ ∧ value.toQ ≤ max_value) then
    .error (.valueError (nm ++ " must be in range."))
  else
    .ok ()

/-- `RebellionManager.__validate_parameters`: the five numeric checks in source
order, then the boolean check on `movement_enabled`, then the density-sum
check. -/
def validate_parameters (initial_cop_density initial_agent_density vision
    government_legitimacy max_jail_term movement_enabled : PyVal) :
    Except PyErr Unit := do
  validate_value "initial_cop_density" initial_cop_density .float 0 100
  validate_value "initial_agent_density" initial_agent_density .int 0 100
  validate_value "vision" vision .float 0 7
  validate_value "government_legitimacy" government_legitimacy .float 0 1
  validate_value "max_jail_term" max_jail_term .int 0 50
  if ¬ movement_enabled.isBool then
    throw (.typeError "movement_enabled must be a boolean.")
  if initial_cop_density.toQ + initial_agent_density.toQ > 100 then
    throw (.valueError "The sum of initial_cop_density and initial_agent_density should not be greater than 100.")

/-! ### Neighbour index (`__init_coord_neighbours`) -/

/-- Wrap-aware axis delta: `dx = |a - b|`, replaced by `extent - dx` when it
exceeds `extent / 2` (the comparison `dx > extent / 2` is exact on integers as
`2 * dx > extent`). -/
def wrapDelta (extent a b : ℕ) : ℕ :=
  let d := max a b - min a b
  if 2 * d > extent then extent - d else d

/-- The in-radius test `math.sqrt(dx**2 + dy**2) <= vision` of source
`distance`, encoded rationally: for `dx, dy ≥ 0`,
`sqrt(dx² + dy²) ≤ v ↔ 0 ≤ v ∧ dx² + dy² ≤ v²` (a bridging lemma below proves
this encoding is the square-root comparison). The `0.5` cell-centre offsets of
the source cancel in the axis difference. -/
def inVision (rows cols : ℕ) (vision : ℚ) (a b : Coord) : Bool :=
  decide (0 ≤ vision) &&
    decide (((wrapDelta rows a.1 b.1 : ℚ)) ^ 2 + ((wrapDelta cols a.2 b.2 : ℚ)) ^ 2 ≤ vision ^ 2)

/-- All grid coordinates in the source iteration order (row-major). -/
def allCoords (rows cols : ℕ) : List Coord :=
  (List.range rows).flatMap (fun i => (List.range cols).map (fun j => (i, j)))

/-- The neighbour list of a coordinate: every grid cell (self included) whose
wrap-aware euclidean distance is within the vision radius, in row-major order.
Looking up a key absent from the precomputed `defaultdict` yields `[]`, hence
the grid-membership guard. -/
def coord_neighbours (rows cols : ℕ) (vision : ℚ) (c : Coord) : List Coord :=
  if c.1 < rows ∧ c.2 < cols then
    (allCoords rows cols).filter (fun d => inVision rows cols vision c d)
  else
    []

/-! ### Actors and simulation state -/

/-- The mutable attributes of an `Agent` object. -/
structure AgentData where
  perceived_hardship : ℚ
  risk_aversion : ℚ
  active : Bool
  jail_term : ℤ
deriving DecidableEq, Repr

/-- One record of `self._report`. -/
structure TickRecord where
  tick : ℕ
  quiet : ℕ
  jailed : ℕ
  active : ℕ
deriving DecidableEq, Repr

/-- The state of a `RebellionManager` (grid geometry, run parameters, the two
spatial views, the agent objects' mutable state, tick counter and report). -/
structure SimState where
  num_rows : ℕ
  num_cols : ℕ
  num_cops : ℕ
  num_agents : ℕ
  vision : ℚ
  government_legitimacy : ℚ
  max_jail_term : ℤ
  movement_enabled : Bool
  coord_turtles : List (Coord × List TRef)
  turtle_coords : List (TRef × Coord)
  agents : List (ℕ × AgentData)
  tick : ℕ
  report : List TickRecord
deriving DecidableEq, Repr

/-- Association-map lookup. -/
def amGet {κ ν : Type} [DecidableEq κ] (l : List (κ × ν)) (k : κ) : Option ν :=
  (l.find? (fun p => decide (p.1 = k))).map Prod.snd

/-- Association-map update: in-place when the key is present (Python dict
assignment), appended otherwise (dict insertion keeps insertion order). -/
def amSet {κ ν : Type} [DecidableEq κ] (l : List (κ × ν)) (k : κ) (v : ν) :
    List (κ × ν) :=
  if l.any (fun p => decide (p.1 = k)) then
    l.map (fun p => if p.1 = k then (k, v) else p)
  else
    l ++ [(k, v)]

def agentDefault : AgentData := ⟨0, 0, false, 0⟩

/-- The state of the agent object with a given id. -/
def getAgent (s : SimState) (r : ℕ) : AgentData :=
  (amGet s.agents r).getD agentDefault

/-- Mutate the agent object with a given id (visible through both views). -/
def setAgent (s : SimState) (r : ℕ) (d : AgentData) : SimState :=
  { s with agents := amSet s.agents r d }

/-- `self._coord_turtles[c]` (a `defaultdict(list)`: missing keys read `[]`). -/
def cellOcc (s : SimState) (c : Coord) : List TRef :=
  (amGet s.coord_turtles c).getD []

def setCell (s : SimState) (c : Coord) (v : List TRef) : SimState :=
  { s with coord_turtles := amSet s.coord_turtles c v }

/-- `self._coord_neighbours[c]` for the current configuration. -/
def neighboursOf (s : SimState) (c : Coord) : List Coord :=
  coord_neighbours s.num_rows s.num_cols s.vision c

/-! ### Randomness -/

/-- The draws the process-wide random generator supplies, one stream per call
site kind.  Integer draws are reduced modulo the requested bound, so every
value `randrange` / `random.choice` / `random.shuffle` can produce is reachable
by a suitable stream.  `act_bools` records the boolean outcome of the
floating-point comparison closing `__determine_behaviour`; reachability
constrains it through `ActQueryValid` below. -/
structure Streams where
  place_ints : ℕ → ℕ
  hardship_draws : ℕ → ℚ
  aversion_draws : ℕ → ℚ
  shuffle_ints : ℕ → ℕ
  move_ints : ℕ → ℕ
  suspect_ints : ℕ → ℕ
  jail_ints : ℕ → ℕ
  act_bools : ℕ → Bool

/-- `random.randrange(n)`: uniform on `[0, n)`, raising `ValueError` on an
empty range exactly as Python does. -/
def randrange (n : ℤ) (draw : ℕ) : Except PyErr ℕ :=
  if n ≤ 0 then .error (.valueError "empty range for randrange()")
  else .ok (draw % n.toNat)

/-! ### `setup` -/

/-- The cop count `round(initial_cop_density * 0.01 * rows * cols)`. -/
def cop_count (max_pxcor max_pycor : ℕ) (initial_cop_density : PyVal) : ℕ :=
  (pyRound (initial_cop_density.toQ * (1/100) *
    ((max_pycor + 1 : ℕ) : ℚ) * ((max_pxcor + 1 : ℕ) : ℚ))).toNat

/-- The agent count `round(initial_agent_density * 0.01 * rows * cols)`. -/
def agent_count (max_pxcor max_pycor : ℕ) (initial_agent_density : PyVal) : ℕ :=
  (pyRound (initial_agent_density.toQ * (1/100) *
    ((max_pycor + 1 : ℕ) : ℚ) * ((max_pxcor + 1 : ℕ) : ℚ))).toNat

/-- One pool draw of `setup`: `index = randrange(len(available_patches))`
followed by `available_patches.pop(index)`, yielding the drawn patch and the
shrunk pool. -/
def pickPool (pool : List Coord) (draw : ℕ) : Except PyErr (Coord × List Coord) :=
  match randrange (pool.length : ℤ) draw with
  | .error e => .error e
  | .ok i =>
      match pool.get? i with
      | none => .error PyErr.keyError
      | some rc => .ok (rc, pool.eraseIdx i)

/-- Installing a freshly created cop on its drawn patch: the cell's occupant
list is assigned `[cop]` and the cop's coordinate recorded. -/
def placeCopState (s : SimState) (cid : ℕ) (rc : Coord) : SimState :=
  let s' := setCell s rc [TRef.cop cid]
  { s' with turtle_coords := amSet s'.turtle_coords (TRef.cop cid) rc }

/-- The cop-placement loop of `setup`: each iteration draws a random index
into the shrinking pool of unused patches, removes that patch, creates a cop
with the next id and installs it in both spatial views. -/
def placeCops (strm : Streams) :
    ℕ → ℕ → ℕ → List Coord → SimState → Except PyErr (SimState × List Coord × ℕ)
  | 0, k, _, pool, s => .ok (s, pool, k)
  | n + 1, k, cid, pool, s =>
      match pickPool pool (strm.place_ints k) with
      | .error e => .error e
      | .ok (rc, pool') =>
          placeCops strm n (k + 1) (cid + 1) pool' (placeCopState s cid rc)

/-- Creating and installing one agent during `setup`: draw hardship and risk
aversion, optionally nudge the hardship 10% toward the mean hardship of
already-placed agent neighbours (guarding the divisor with
`max(len, 0.0001)`), assign the cell's occupant list and record the
coordinate. -/
def placeAgentState (strm : Streams) (agg : Bool) (s : SimState) (aid : ℕ)
    (rc : Coord) : SimState :=
  let h0 := strm.hardship_draws aid
  let ra := strm.aversion_draws aid
  let h1 :=
    if agg then
      let ns := (neighboursOf s rc).flatMap (fun nc =>
        (cellOcc s nc).filterMap (fun t =>
          match t with
          | TRef.agent r => some ((getAgent s r).perceived_hardship)
          | TRef.cop _ => none))
      h0 + (1/10) * (ns.sum / max (ns.length : ℚ) (1/10000) - h0)
    else h0
  let s' := setCell s rc [TRef.agent aid]
  { s' with
    turtle_coords := amSet s'.turtle_coords (TRef.agent aid) rc,
    agents := amSet s'.agents aid ⟨h1, ra, false, 0⟩ }

/-- The agent-placement loop of `setup`: draw a patch, create an agent with
fresh uniform `perceived_hardship` and `risk_aversion`, nudge per the
aggregate-grievance flag, and install it. -/
def placeAgents (strm : Streams) (agg : Bool) :
    ℕ → ℕ → ℕ → List Coord → SimState → Except PyErr (SimState × List Coord × ℕ)
  | 0, k, _, pool, s => .ok (s, pool, k)
  | n + 1, k, aid, pool, s =>
      match pickPool pool (strm.place_ints k) with
      | .error e => .error e
      | .ok (rc, pool') =>
          placeAgents strm agg n (k + 1) (aid + 1) pool'
            (placeAgentState strm agg s aid rc)

/-- The freshly reset manager state of `setup`, before placement. -/
def initState (max_pxcor max_pycor : ℕ)
    (initial_cop_density initial_agent_density vision government_legitimacy
      max_jail_term movement_enabled : PyVal) : SimState :=
  { num_rows := max_pycor + 1
    num_cols := max_pxcor + 1
    num_cops := cop_count max_pxcor max_pycor initial_cop_density
    num_agents := agent_count max_pxcor max_pycor initial_agent_density
    vision := vision.toQ
    government_legitimacy := government_legitimacy.toQ
    max_jail_term := max_jail_term.toZ
    movement_enabled := movement_enabled.truthy
    coord_turtles := []
    turtle_coords := []
    agents := []
    tick := 0
    report := [] }

/-- The agent-placement phase of `setup` followed by seeding the report with
the tick-0 record. -/
def setupAgentsPhase (strm : Streams) (aggT : Bool) (nAgents k1 : ℕ)
    (pool1 : List Coord) (s1 : SimState) : Except PyErr SimState :=
  match placeAgents strm aggT nAgents k1 0 pool1 s1 with
  | .error e => .error e
  | .ok (s2, _, _) => .ok { s2 with report := [⟨0, nAgents, 0, 0⟩] }

/-- The placement phases of `setup`: cops first, then agents. -/
def setupPlace (strm : Streams) (aggT : Bool) (nCops nAgents rows cols : ℕ)
    (s0 : SimState) : Except PyErr SimState :=
  match placeCops strm nCops 0 0 (allCoords rows cols) s0 with
  | .error e => .error e
  | .ok (s1, pool1, k1) => setupAgentsPhase strm aggT nAgents k1 pool1 s1

/-- `RebellionManager.setup` on a fresh manager with world extents
`max_pxcor`/`max_pycor` (constructor: `rows = max_pycor + 1`,
`cols = max_pxcor + 1`): validate, reset the world, compute the population
counts, place cops then agents on distinct random patches, and seed the report
with the tick-0 record. -/
def setup (max_pxcor max_pycor : ℕ)
    (initial_cop_density initial_agent_density vision government_legitimacy
      max_jail_term movement_enabled aggregate_greivance : PyVal)
    (strm : Streams) : Except PyErr SimState :=
  match validate_parameters initial_cop_density initial_agent_density vision
      government_legitimacy max_jail_term movement_enabled with
  | .error e => .error e
  | .ok _ =>
      setupPlace strm aggregate_greivance.truthy
        (cop_count max_pxcor max_pycor initial_cop_density)
        (agent_count max_pxcor max_pycor initial_agent_density)
        (max_pycor + 1) (max_pxcor + 1)
        (initState max_pxcor max_pycor initial_cop_density initial_agent_density
          vision government_legitimacy max_jail_term movement_enabled)

/-! ### `go`: one tick -/

/-- The data of one Rule-A decision: the computed grievance, the agent's risk
aversion, the cop count `c` and the counter `a` (initialised to `1` and
incremented per active agent in vision, exactly as in the source), and the
boolean outcome of the threshold comparison. -/
structure ActQuery where
  grievance : ℚ
  risk_aversion : ℚ
  c : ℕ
  a : ℕ
  result : Bool
deriving DecidableEq, Repr

/-- Positions in the random streams consumed so far during a tick, plus the
log of Rule-A decisions taken. -/
structure GoCtr where
  moveK : ℕ
  suspectK : ℕ
  jailK : ℕ
  actK : ℕ
  log : List ActQuery
deriving DecidableEq, Repr

/-- `random.shuffle`, modelled by selection: repeatedly draw an index into the
remaining list and emit that element.  Every permutation is the output for a
suitable draw stream.  `fuel` is the input length. -/
def selectPerm {α : Type} (draws : ℕ → ℕ) : ℕ → ℕ → List α → List α
  | _, 0, _ => []
  | _, _ + 1, [] => []
  | k, fuel + 1, x :: xs =>
      let l := x :: xs
      let i := draws k % l.length
      match l.get? i with
      | some y => y :: selectPerm draws (k + 1) fuel (l.eraseIdx i)
      | none => []

/-- A candidate destination of `__move`: empty, or occupied exclusively by
jailed agents. -/
def valid_square (s : SimState) (c : Coord) : Bool :=
  (cellOcc s c).all (fun t =>
    match t with
    | TRef.agent r => decide ((getAgent s r).jail_term ≠ 0)
    | TRef.cop _ => false)

/-- `__move_turtle`: append the turtle to the destination's occupant list,
then rebuild the source's list without it, then repoint the turtle's
coordinate.  (Appending before filtering means a move whose destination equals
its source drops the turtle from the occupancy view, as in the source.) -/
def move_turtle (s : SimState) (t : TRef) (src dst : Coord) : SimState :=
  let s1 := setCell s dst (cellOcc s dst ++ [t])
  let s2 := setCell s1 src ((cellOcc s1 src).filter (fun x => decide (x ≠ t)))
  { s2 with turtle_coords := amSet s2.turtle_coords t dst }

/-- `random.choice`: a uniform pick from a list, `none` exactly on the empty
list (on which Python's `choice` is never invoked by this program). -/
def choose {α : Type} (l : List α) (draw : ℕ) : Option α :=
  l.get? (draw % l.length)

/-- The candidate destinations of `__move` from `c`: neighbour cells that are
empty or occupied exclusively by jailed agents. -/
def move_targets (s : SimState) (c : Coord) : List Coord :=
  (neighboursOf s c).filter (fun d => valid_square s d)

/-- `__move`: for a cop, or any turtle when movement is enabled, pick a random
valid neighbour cell (if any) and relocate. -/
def move (strm : Streams) (ctr : GoCtr) (s : SimState) (t : TRef) (c : Coord) :
    SimState × GoCtr :=
  if s.movement_enabled || (match t with | TRef.cop _ => true | _ => false) then
    match choose (move_targets s c) (strm.move_ints ctr.moveK) with
    | none => (s, ctr)
    | some dst => (move_turtle s t c dst, { ctr with moveK := ctr.moveK + 1 })
  else (s, ctr)

/-- The aggregate-grievance sample: `neighbour.perceived_hardship * (1 -
government_legitimacy)` for every agent occupant of every neighbour cell of
`c` (jailed or not, the deciding agent itself included). -/
def agent_grievances (s : SimState) (c : Coord) : List ℚ :=
  (neighboursOf s c).flatMap (fun nc =>
    (cellOcc s nc).filterMap (fun t =>
      match t with
      | TRef.agent r =>
          some ((getAgent s r).perceived_hardship * (1 - s.government_legitimacy))
      | TRef.cop _ => none))

/-- The suspects a cop at `c` collects: every active agent occupying a
neighbour cell, paired with its position. -/
def suspects_of (s : SimState) (c : Coord) : List (ℕ × Coord) :=
  (neighboursOf s c).flatMap (fun nc =>
    (cellOcc s nc).filterMap (fun x =>
      match x with
      | TRef.agent r => if (getAgent s r).active then some (r, nc) else none
      | TRef.cop _ => none))

/-- Cops among the occupants of the neighbour cells of `c`. -/
def cops_in_vision (s : SimState) (c : Coord) : ℕ :=
  ((neighboursOf s c).flatMap (fun nc => cellOcc s nc)).countP (fun t =>
    match t with
    | TRef.cop _ => true
    | TRef.agent _ => false)

/-- Active agents among the occupants of the neighbour cells of `c`. -/
def active_in_vision (s : SimState) (c : Coord) : ℕ :=
  ((neighboursOf s c).flatMap (fun nc => cellOcc s nc)).countP (fun t =>
    match t with
    | TRef.agent r => (getAgent s r).active
    | TRef.cop _ => false)

/-- The hardship drift of `__determine_behaviour`: shift towards/away from
`0.5` by 10% of the distance and clamp into `[0, 1]` (identity when the
shifting switch is off). -/
def shiftHardship (sh : Bool) (h0 : ℚ) : ℚ :=
  if sh then
    let h := h0 + (1/10) * (h0 - 1/2)
    let h2 := if h < 0 then 0 else h
    if h2 > 1 then 1 else h2
  else h0

/-- The deciding agent's state after the optional hardship drift. -/
def hardshipShifted (s : SimState) (aid : ℕ) (sh : Bool) : SimState :=
  setAgent s aid
    { getAgent s aid with
      perceived_hardship := shiftHardship sh (getAgent s aid).perceived_hardship }

/-- The grievance of `__determine_behaviour`: standard
`hardship * (1 - legitimacy)`, or in aggregate mode the mean of the
neighbourhood samples — dividing by the sample count and raising
`ZeroDivisionError` when it is zero, as Python would. -/
def grievance_of (s : SimState) (ag : Bool) (h1 : ℚ) (coord : Coord) : Except PyErr ℚ :=
  if ag then
    if (agent_grievances s coord).length = 0 then .error PyErr.zeroDivisionError
    else .ok ((agent_grievances s coord).sum / ((agent_grievances s coord).length : ℚ))
  else .ok (h1 * (1 - s.government_legitimacy))

/-- The tail of `__determine_behaviour` once the deciding agent's coordinate
is known: compute the grievance, count cops and active agents in vision, and
package the decision inputs together with the supplied comparison outcome. -/
def behaviourAt (s1 : SimState) (d0 : AgentData) (ag : Bool) (h1 : ℚ)
    (actDraw : Bool) (coord : Coord) : Except PyErr (SimState × ActQuery) :=
  match grievance_of s1 ag h1 coord with
  | .error e => .error e
  | .ok grievance =>
      .ok (s1, ⟨grievance, d0.risk_aversion, cops_in_vision s1 coord,
        1 + active_in_vision s1 coord, actDraw⟩)

/-- `__determine_behaviour` up to (but excluding) the final floating-point
comparison: optionally drift-and-clamp the hardship, look the agent's
coordinate up (`KeyError` when absent, as `dict` indexing raises), and hand
over to `behaviourAt`. -/
def determine_behaviour (s : SimState) (aid : ℕ)
    (shift_perceived_hardship aggregate_greivance : Bool) (actDraw : Bool) :
    Except PyErr (SimState × ActQuery) :=
  match amGet (hardshipShifted s aid shift_perceived_hardship).turtle_coords
      (TRef.agent aid) with
  | none => .error PyErr.keyError
  | some coord =>
      behaviourAt (hardshipShifted s aid shift_perceived_hardship) (getAgent s aid)
        aggregate_greivance
        (shiftHardship shift_perceived_hardship (getAgent s aid).perceived_hardship)
        actDraw coord

/-- The state after the cop's relocation onto the suspect and the clearing of
the suspect's active flag, before the sentence draw. -/
def arrestState (s : SimState) (t : TRef) (c : Coord) (sid : ℕ) (scoord : Coord) :
    SimState :=
  setAgent (move_turtle s t c scoord) sid
    { getAgent (move_turtle s t c scoord) sid with active := false }

/-- The arrest half of `__enforce`, once a suspect has been chosen: apply
`arrestState`, then draw the sentence from `[0, max_jail_term)` — the draw
raising `ValueError` when `max_jail_term` is `0`, after the relocation and
the flag clear already happened.  An error carries the partially mutated
state, as an uncaught Python exception would. -/
def arrest (strm : Streams) (ctr : GoCtr) (s : SimState) (t : TRef) (c : Coord)
    (sid : ℕ) (scoord : Coord) : Except (PyErr × SimState) (SimState × GoCtr) :=
  match randrange (arrestState s t c sid scoord).max_jail_term
      (strm.jail_ints ctr.jailK) with
  | .error e => .error (e, arrestState s t c sid scoord)
  | .ok j =>
      .ok (setAgent (arrestState s t c sid scoord) sid
          { getAgent (arrestState s t c sid scoord) sid with jail_term := (j : ℤ) },
        { ctr with suspectK := ctr.suspectK + 1, jailK := ctr.jailK + 1 })

/-- `__enforce`: collect the active agents in vision with their positions; if
any, pick one at random and arrest it. -/
def enforce (strm : Streams) (ctr : GoCtr) (s : SimState) (t : TRef) (c : Coord) :
    Except (PyErr × SimState) (SimState × GoCtr) :=
  match choose (suspects_of s c) (strm.suspect_ints ctr.suspectK) with
  | none => .ok (s, ctr)
  | some (sid, scoord) => arrest strm ctr s t c sid scoord

/-- Rule A for a free agent (post-move state): evaluate
`__determine_behaviour` and write the decision into the agent's `active`
flag, logging the decision; jailed agents are skipped. -/
def ruleA (strm : Streams) (shift_perceived_hardship aggregate_greivance : Bool)
    (s : SimState) (ctr : GoCtr) (r : ℕ) :
    Except (PyErr × SimState) (SimState × GoCtr) :=
  if (getAgent s r).jail_term = 0 then
    match determine_behaviour s r shift_perceived_hardship aggregate_greivance
        (strm.act_bools ctr.actK) with
    | .error e => .error (e, s)
    | .ok (s2, q) =>
        .ok (setAgent s2 r { (getAgent s2 r) with active := q.result },
          { ctr with actK := ctr.actK + 1, log := ctr.log ++ [q] })
  else .ok (s, ctr)

/-- Rule C for a cop (post-move state): look the cop's current coordinate up
in `turtle_coords` and enforce from there. -/
def ruleC (strm : Streams) (s : SimState) (ctr : GoCtr) (t : TRef) :
    Except (PyErr × SimState) (SimState × GoCtr) :=
  match amGet s.turtle_coords t with
  | none => .error (PyErr.keyError, s)
  | some cc => enforce strm ctr s t cc

/-- Rule M as applied by the loop body: free agents and cops move, a jailed
agent's movement phase is skipped. -/
def movePhase (strm : Streams) (p : SimState × GoCtr) (tc : TRef × Coord) :
    SimState × GoCtr :=
  if (match tc.1 with
      | TRef.agent r => decide ((getAgent p.1 r).jail_term = 0)
      | TRef.cop _ => false) ||
     (match tc.1 with | TRef.cop _ => true | TRef.agent _ => false) then
    move strm p.2 p.1 tc.1 tc.2
  else p

/-- The per-turtle body of the `go` loop: Rule M for free agents and cops,
Rule A for free agents, Rule C for cops (looked up at the cop's current,
post-move coordinate). -/
def process_turtle (strm : Streams) (shift_perceived_hardship aggregate_greivance : Bool)
    (p : SimState × GoCtr) (tc : TRef × Coord) :
    Except (PyErr × SimState) (SimState × GoCtr) :=
  match tc.1 with
  | TRef.agent r =>
      ruleA strm shift_perceived_hardship aggregate_greivance
        (movePhase strm p tc).1 (movePhase strm p tc).2 r
  | TRef.cop _ => ruleC strm (movePhase strm p tc).1 (movePhase strm p tc).2 tc.1

/-- Sequential fold of `process_turtle` over the shuffled turtle list. -/
def goFold (strm : Streams) (shift_perceived_hardship aggregate_greivance : Bool) :
    List (TRef × Coord) → SimState × GoCtr → Except (PyErr × SimState) (SimState × GoCtr)
  | [], p => .ok p
  | tc :: rest, p =>
      match process_turtle strm shift_perceived_hardship aggregate_greivance p tc with
      | .error e => .error e
      | .ok p' => goFold strm shift_perceived_hardship aggregate_greivance rest p'

/-- End-of-tick decrement applied to one turtle (agents only):
`jail_term = max(0, jail_term - 1)`. -/
def dec_agent (s : SimState) (t : TRef) : SimState :=
  match t with
  | TRef.agent r =>
      setAgent s r { (getAgent s r) with jail_term := max 0 ((getAgent s r).jail_term - 1) }
  | TRef.cop _ => s

/-- The end-of-tick jail decrement loop over all turtles. -/
def decrement_jails (s : SimState) : SimState :=
  s.turtle_coords.foldl (fun acc p => dec_agent acc p.1) s

/-- One turtle's contribution to the report tally: an agent is counted in
exactly one of jailed (`jail_term != 0`), active, quiet; cops are not
counted. -/
def tallyStep (s : SimState) (rec : TickRecord) (p : TRef × Coord) : TickRecord :=
  match p.1 with
  | TRef.agent r =>
      if (getAgent s r).jail_term ≠ 0 then { rec with jailed := rec.jailed + 1 }
      else if (getAgent s r).active then { rec with active := rec.active + 1 }
      else { rec with quiet := rec.quiet + 1 }
  | TRef.cop _ => rec

/-- The report tally over all turtles. -/
def tally (s : SimState) : TickRecord :=
  s.turtle_coords.foldl (tallyStep s) ⟨s.tick, 0, 0, 0⟩

/-- `RebellionManager.go`: shuffle the `(turtle, coord)` snapshot, process
each turtle (Rules M, A, C), decrement jail terms, advance the tick and append
the report record.  On an uncaught exception the partially mutated state is
returned in the error, and neither the decrement nor the report happen. -/
def go (strm : Streams) (shift_perceived_hardship aggregate_greivance : Bool)
    (s : SimState) : Except (PyErr × SimState) (SimState × List ActQuery) :=
  let order := selectPerm strm.shuffle_ints 0 s.turtle_coords.length s.turtle_coords
  match goFold strm shift_perceived_hardship aggregate_greivance order
      (s, ⟨0, 0, 0, 0, []⟩) with
  | .error e => .error e
  | .ok (s1, ctr) =>
      let s2 := decrement_jails s1
      let s3 := { s2 with tick := s2.tick + 1 }
      .ok ({ s3 with report := s3.report ++ [tally s3] }, ctr.log)

/-! ### Post-setup mutators -/

def update_government_legitimacy (s : SimState) (government_legitimacy : PyVal) :
    Except PyErr SimState :=
  match validate_value "government_legitimacy" government_legitimacy .float 0 1 with
  | .error e => .error e
  | .ok _ => .ok { s with government_legitimacy := government_legitimacy.toQ }

def update_max_jail_term (s : SimState) (max_jail_term : PyVal) :
    Except PyErr SimState :=
  match validate_value "max_jail_term" max_jail_term .int 0 50 with
  | .error e => .error e
  | .ok _ => .ok { s with max_jail_term := max_jail_term.toZ }

def update_movement_enabled (s : SimState) (movement_enabled : PyVal) :
    Except PyErr SimState :=
  if ¬ movement_enabled.isBool then
    .error (.typeError "movement_enabled must be a boolean.")
  else
    .ok { s with movement_enabled := movement_enabled.truthy }

/-! ### Reachability -/

/-- The source's decision constant `K = 2.3`. -/
def K : ℚ := 23/10

/-- The source's decision constant `THRESHOLD = 0.1`. -/
def THRESHOLD : ℚ := 1/10

/-- A logged Rule-A outcome is valid when it is the truth value of the
source's comparison
`grievance - risk_aversion * (1 - exp(-K * floor(c / a))) > THRESHOLD`
over the reals (`floor(c / a)` on naturals is the floored float division of
the source; the bridging lemma for claim C5 relates it to the real floor). -/
def ActQueryValid (q : ActQuery) : Prop :=
  q.result = true ↔
    (q.grievance : ℝ) - (q.risk_aversion : ℝ) *
      (1 - Real.exp (-(K : ℝ) * ((q.c / q.a : ℕ) : ℝ))) > (THRESHOLD : ℝ)

/-- `random.random()` draws lie in `[0, 1)`. -/
def UnitDraws (f : ℕ → ℚ) : Prop := ∀ k, 0 ≤ f k ∧ f k < 1

/-- One completed `go` call, for some streams whose Rule-A outcomes all agree
with the real-valued comparison. -/
def GoStep (s s' : SimState) : Prop :=
  ∃ (strm : Streams) (shift_perceived_hardship aggregate_greivance : Bool)
    (log : List ActQuery),
    go strm shift_perceived_hardship aggregate_greivance s = .ok (s', log) ∧
    ∀ q ∈ log, ActQueryValid q

/-- Iterated completed `go` calls. -/
inductive GoChain : SimState → SimState → Prop
  | refl (s : SimState) : GoChain s s
  | step {s t u : SimState} : GoChain s t → GoStep t u → GoChain s u

/-- States reachable from a successful `setup` with the given parameters by a
sequence of completed `go` calls. -/
def ReachableFrom (max_pxcor max_pycor : ℕ)
    (initial_cop_density initial_agent_density vision government_legitimacy
      max_jail_term movement_enabled aggregate_greivance : PyVal)
    (s : SimState) : Prop :=
  ∃ (strm : Streams) (s₀ : SimState),
    UnitDraws strm.hardship_draws ∧ UnitDraws strm.aversion_draws ∧
    setup max_pxcor max_pycor initial_cop_density initial_agent_density vision
      government_legitimacy max_jail_term movement_enabled aggregate_greivance
      strm = .ok s₀ ∧
    GoChain s₀ s

/-- States reachable from some successful `setup` by completed `go` calls. -/
def Reachable (s : SimState) : Prop :=
  ∃ (max_pxcor max_pycor : ℕ)
    (initial_cop_density initial_agent_density vision government_legitimacy
      max_jail_term movement_enabled aggregate_greivance : PyVal),
    ReachableFrom max_pxcor max_pycor initial_cop_density initial_agent_density
      vision government_legitimacy max_jail_term movement_enabled
      aggregate_greivance s

/-! ### Notions used by the verified properties -/

/-- A free actor: a cop, or an agent whose `jail_term` is `0`. -/
def free_actor (s : SimState) (t : TRef) : Bool :=
  match t with
  | TRef.agent r => decide ((getAgent s r).jail_term = 0)
  | TRef.cop _ => true

/-- The number of free actors occupying a cell. -/
def freeCount (s : SimState) (c : Coord) : ℕ :=
  (cellOcc s c).countP (free_actor s)

/-- The no-collision property asserted for cells between ticks: no cell hosts
two free actors. -/
def NoCollision (s : SimState) : Prop :=
  ∀ c : Coord, freeCount s c ≤ 1

/-- Whether a turtle reference is an agent. -/
def isAgentRef : TRef → Bool
  | TRef.agent _ => true
  | TRef.cop _ => false

/-- The number of agents among a turtle list (the live agent population). -/
def agentKeyCount (l : List (TRef × Coord)) : ℕ :=
  (l.map Prod.fst).countP isAgentRef

/-- Every agent object's `jail_term` is zero. -/
def AllJailZero (s : SimState) : Prop :=
  ∀ r, (getAgent s r).jail_term = 0

/-- The run-long structural invariant of the spatial state: non-negative
vision, duplicate-free turtle keys, every agent's recorded coordinate lists
the agent among its occupants, and every recorded coordinate lies on the
grid. -/
structure Inv (s : SimState) : Prop where
  visNN : 0 ≤ s.vision
  keysND : (s.turtle_coords.map Prod.fst).Nodup
  placed : ∀ r c, amGet s.turtle_coords (TRef.agent r) = some c →
    TRef.agent r ∈ cellOcc s c
  inGrid : ∀ t c, amGet s.turtle_coords t = some c →
    c.1 < s.num_rows ∧ c.2 < s.num_cols

/-- The invariant carried through `setup`'s placement loops: grid geometry,
duplicate-free keys, agents listed at their recorded cells, recorded cells on
the grid, a duplicate-free pool of unoccupied grid cells, occupied cells
absent from the pool, and id-freshness of the counters.  `cid`/`aid` are the
next cop/agent ids. -/
structure PlaceInv (cid aid : ℕ) (pool : List Coord) (s : SimState) : Prop where
  keysND : (s.turtle_coords.map Prod.fst).Nodup
  placed : ∀ r c, amGet s.turtle_coords (TRef.agent r) = some c →
    TRef.agent r ∈ cellOcc s c
  inGrid : ∀ t c, amGet s.turtle_coords t = some c →
    c.1 < s.num_rows ∧ c.2 < s.num_cols
  poolND : pool.Nodup
  poolGrid : ∀ c ∈ pool, c.1 < s.num_rows ∧ c.2 < s.num_cols
  poolFree : ∀ t c, amGet s.turtle_coords t = some c → c ∉ pool
  copFresh : ∀ i, cid ≤ i → TRef.cop i ∉ s.turtle_coords.map Prod.fst
  agentFresh : ∀ i, aid ≤ i → TRef.agent i ∉ s.turtle_coords.map Prod.fst
  agentsND : (s.agents.map Prod.fst).Nodup
  agentsFresh : ∀ i, aid ≤ i → i ∉ s.agents.map Prod.fst
  jailZero : ∀ r, (getAgent s r).jail_term = 0

/-- The configuration and bookkeeping fields `process_turtle` never writes. -/
def cfgOf (s : SimState) : ℕ × ℕ × ℕ × ℕ × ℚ × ℚ × ℤ × Bool × ℕ × List TickRecord :=
  (s.num_rows, s.num_cols, s.num_cops, s.num_agents, s.vision,
    s.government_legitimacy, s.max_jail_term, s.movement_enabled, s.tick, s.report)

/-! ### Concrete demonstration runs (1×2 grid, one cop, one agent) -/

def emptyState : SimState :=
  { num_rows := 0, num_cols := 0, num_cops := 0, num_agents := 0, vision := 0,
    government_legitimacy := 0, max_jail_term := 0, movement_enabled := false,
    coord_turtles := [], turtle_coords := [], agents := [], tick := 0, report := [] }

/-- Streams for the demonstration runs: the cop is placed first (cell `(0,0)`),
the agent second (cell `(0,1)`, hardship `0.9`, risk aversion `0`); the
shuffle puts the agent before the cop; every other pick takes index 0. -/
def ceStrm : Streams :=
  { place_ints := fun _ => 0
    hardship_draws := fun _ => 9/10
    aversion_draws := fun _ => 0
    shuffle_ints := fun k => if k = 0 then 1 else 0
    move_ints := fun _ => 0
    suspect_ints := fun _ => 0
    jail_ints := fun _ => 0
    act_bools := fun _ => true }

/-- `setup` of the demonstration run: 1×2 grid, 50% cops, 50% agents,
vision 7, legitimacy 0, `max_jail_term = 1`, movement disabled. -/
def ceSetup : Except PyErr SimState :=
  setup 1 0 (.float 50) (.int 50) (.float 7) (.float 0) (.int 1) (.bool false)
    (.bool false) ceStrm

def ce_s0 : SimState :=
  match ceSetup with
  | .ok s => s
  | .error _ => emptyState

/-- One `go` tick of the demonstration run: the agent turns active, the cop
arrests it (relocating onto its cell) and the drawn sentence is
`randrange(1) = 0`, so after the end-of-tick decrement the agent is free and
still shares its cell with the cop. -/
def ceGoRes : Except (PyErr × SimState) (SimState × List ActQuery) :=
  go ceStrm false false ce_s0

def ce_s1 : SimState :=
  match ceGoRes with
  | .ok p => p.1
  | .error p => p.2

def ce_log : List ActQuery :=
  match ceGoRes with
  | .ok p => p.2
  | .error _ => []

/-- The same run with `max_jail_term = 0` (accepted by validation). -/
def ce0Setup : Except PyErr SimState :=
  setup 1 0 (.float 50) (.int 50) (.float 7) (.float 0) (.int 0) (.bool false)
    (.bool false) ceStrm

def ce0_s0 : SimState :=
  match ce0Setup with
  | .ok s => s
  | .error _ => emptyState

/-- `go` on the `max_jail_term = 0` run: the arrest reaches
`randrange(0)`, which raises, leaving the tick partially applied. -/
def ce0Res : Except (PyErr × SimState) (SimState × List ActQuery) :=
  go ceStrm false false ce0_s0

/-- The partially mutated state the uncaught exception leaves behind. -/
def ce0_err : SimState :=
  match ce0Res with
  | .error p => p.2
  | .ok p => p.1

/-- The demonstration `setup` call with a non-boolean value passed for the
`aggregate_greivance` parameter (declared `bool` in its docstring): the
parameter is never validated, so the call succeeds. -/
def ce7Setup : Except PyErr SimState :=
  setup 1 0 (.float 50) (.int 50) (.float 7) (.float 0) (.int 1) (.bool false)
    (.int 2) ceStrm

def ce7_s0 : SimState :=
  match ce7Setup with
  | .ok s => s
  | .error _ => emptyState

/-- Streams agreeing with `ceStrm` on every draw `setup` of the demonstration
run consumes (two placement draws, one hardship, one aversion) but differing
beyond that prefix. -/
def ceStrmB : Streams :=
  { ceStrm with
    place_ints := fun k => if 2 ≤ k then 17 else 0
    hardship_draws := fun k => if 1 ≤ k then 1/3 else 9/10
    aversion_draws := fun k => if 1 ≤ k then 2/3 else 0 }

/-- The density-sum error message, distinct from every per-parameter one. -/
def densitySumMsg : String :=
  "The sum of initial_cop_density and initial_agent_density should not be greater than 100."

/-- Every agent object's `jail_term` is non-negative. -/
def JailNN (s : SimState) : Prop :=
  ∀ r, 0 ≤ (getAgent s r).jail_term

/-- The demonstration `max_jail_term = 0` state right after its agent has
turned active: the configuration in which the cop's arrest reaches
`randrange(0)`. -/
def ce0Mid : SimState :=
  setAgent ce0_s0 0 { getAgent ce0_s0 0 with active := true }

/-! ## Theorems -/

/-! ### Association-map lemmas -/

theorem amGet_nil {κ ν : Type} [DecidableEq κ] (k : κ) :
    amGet ([] : List (κ × ν)) k = none := rfl

theorem amGet_cons {κ ν : Type} [DecidableEq κ] (p : κ × ν) (l : List (κ × ν)) (k : κ) :
    amGet (p :: l) k = if p.1 = k then some p.2 else amGet l k := by
  by_cases h : p.1 = k <;> simp [amGet, List.find?_cons, h]

theorem amGet_amSet_self {κ ν : Type} [DecidableEq κ] (l : List (κ × ν)) (k : κ) (v : ν) :
    amGet (amSet l k v) k = some v := by
  unfold amSet
  by_cases hstart : l.any (fun p => decide (p.1 = k))
  · simp only [hstart, if_true]
    induction l with
    | nil => simp at hstart
    | cons p rest ih =>
        by_cases hp : p.1 = k
        · simp [amGet_cons, hp]
        · have hrest : rest.any (fun p => decide (p.1 = k)) := by
            simpa [List.any_cons, hp] using hstart
          simpa [amGet_cons, hp] using ih hrest
  · simp only [hstart, if_false]
    induction l with
    | nil => simp [amGet_cons]
    | cons p rest ih =>
        have hp : ¬ p.1 = k := by
          intro h
          exact hstart (by simp [List.any_cons, h])
        have hrest : ¬ rest.any (fun p => decide (p.1 = k)) := by
          intro h
          exact hstart (by simp [List.any_cons, h])
        simpa [amGet_cons, hp] using ih hrest

theorem amGet_map_update_ne {κ ν : Type} [DecidableEq κ] (l : List (κ × ν)) (k k' : κ) (v : ν)
    (h : k' ≠ k) :
    amGet (l.map (fun p => if p.1 = k then (k, v) else p)) k' = amGet l k' := by
  induction l with
  | nil => rfl
  | cons p rest ih =>
      by_cases hp : p.1 = k
      · have hk : ¬ (k = k') := fun hkk => h hkk.symm
        have hp' : ¬ (p.1 = k') := by
          rw [hp]
          exact hk
        simp [amGet_cons, hp, hk, hp', ih]
      · by_cases hq : p.1 = k' <;> simp [amGet_cons, hp, hq, ih, h]

theorem amGet_append_single_ne {κ ν : Type} [DecidableEq κ] (l : List (κ × ν)) (k k' : κ) (v : ν)
    (h : k' ≠ k) : amGet (l ++ [(k, v)]) k' = amGet l k' := by
  induction l with
  | nil =>
      have hk : ¬ (k = k') := fun hkk => h hkk.symm
      simp [amGet_cons, hk, amGet_nil]
  | cons p rest ih =>
      by_cases hq : p.1 = k' <;> simp [amGet_cons, hq, ih]

theorem amGet_amSet_ne {κ ν : Type} [DecidableEq κ] (l : List (κ × ν)) (k k' : κ) (v : ν)
    (h : k' ≠ k) : amGet (amSet l k v) k' = amGet l k' := by
  unfold amSet
  by_cases hstart : l.any (fun p => decide (p.1 = k))
  · simp only [hstart, if_true]
    exact amGet_map_update_ne l k k' v h
  · simp only [hstart, if_false]
    exact amGet_append_single_ne l k k' v h

theorem amSet_map_fst_of_any {κ ν : Type} [DecidableEq κ] (l : List (κ × ν)) (k : κ) (v : ν)
    (h : l.any (fun p => decide (p.1 = k))) :
    (amSet l k v).map Prod.fst = l.map Prod.fst := by
  unfold amSet
  simp only [h, if_true]
  clear h
  induction l with
  | nil => rfl
  | cons p rest ih =>
      by_cases hp : p.1 = k
      · simp only [List.map_cons, hp, if_true, ih]
      · simp only [List.map_cons, hp, if_false, ih]

theorem amSet_map_fst_of_not_any {κ ν : Type} [DecidableEq κ] (l : List (κ × ν)) (k : κ) (v : ν)
    (h : ¬ l.any (fun p => decide (p.1 = k))) :
    (amSet l k v).map Prod.fst = l.map Prod.fst ++ [k] := by
  unfold amSet
  simp [h]

theorem any_key_of_amGet {κ ν : Type} [DecidableEq κ] (l : List (κ × ν)) (k : κ) (v : ν)
    (h : amGet l k = some v) : l.any (fun p => decide (p.1 = k)) := by
  induction l with
  | nil => simp [amGet] at h
  | cons p rest ih =>
      by_cases hp : p.1 = k
      · simp [List.any_cons, hp]
      · rw [amGet_cons] at h
        simp only [hp, if_false] at h
        simp [List.any_cons, ih h]

theorem amSet_map_fst_of_amGet {κ ν : Type} [DecidableEq κ] (l : List (κ × ν)) (k : κ)
    (v w : ν) (h : amGet l k = some w) :
    (amSet l k v).map Prod.fst = l.map Prod.fst := by
  exact amSet_map_fst_of_any l k v (any_key_of_amGet l k w h)

theorem mem_of_amGet {κ ν : Type} [DecidableEq κ] (l : List (κ × ν)) (k : κ) (v : ν)
    (h : amGet l k = some v) : (k, v) ∈ l := by
  induction l with
  | nil => simp [amGet] at h
  | cons p rest ih =>
      rw [amGet_cons] at h
      obtain ⟨a, b⟩ := p
      by_cases hp : a = k
      · rw [if_pos hp] at h
        injection h with h
        have hb : b = v := h
        rw [List.mem_cons]
        exact Or.inl (by rw [hp, hb])
      · rw [if_neg hp] at h
        exact List.mem_cons_of_mem _ (ih h)

theorem amGet_of_mem_nodup {κ ν : Type} [DecidableEq κ] (l : List (κ × ν)) (k : κ) (v : ν)
    (hnd : (l.map Prod.fst).Nodup) (h : (k, v) ∈ l) : amGet l k = some v := by
  induction l with
  | nil => simp at h
  | cons p rest ih =>
      rw [List.map_cons, List.nodup_cons] at hnd
      rcases List.mem_cons.mp h with h1 | h2
      · rw [← h1, amGet_cons]
        simp
      · have hp : ¬ p.1 = k := by
          intro hkey
          exact hnd.1 (by
            rw [hkey]
            exact List.mem_map_of_mem Prod.fst h2)
        rw [amGet_cons]
        simp only [hp, if_false]
        exact ih hnd.2 h2

theorem amGet_isSome_of_mem {κ ν : Type} [DecidableEq κ] (l : List (κ × ν)) (k : κ) (v : ν)
    (h : (k, v) ∈ l) : ∃ w, amGet l k = some w := by
  induction l with
  | nil => simp at h
  | cons p rest ih =>
      rw [amGet_cons]
      by_cases hp : p.1 = k
      · exact ⟨p.2, by simp [hp]⟩
      · rcases List.mem_cons.mp h with h1 | h2
        · exact absurd (by rw [← h1]) hp
        · simpa [hp] using ih h2

theorem amSet_keys_nodup {κ ν : Type} [DecidableEq κ] (l : List (κ × ν)) (k : κ) (v : ν)
    (h : (l.map Prod.fst).Nodup) : ((amSet l k v).map Prod.fst).Nodup := by
  by_cases hstart : l.any (fun p => decide (p.1 = k))
  · rw [amSet_map_fst_of_any l k v hstart]
    exact h
  · rw [amSet_map_fst_of_not_any l k v hstart]
    have hk : k ∉ l.map Prod.fst := by
      intro hmem
      rcases List.mem_map.mp hmem with ⟨p, hp, hfst⟩
      exact hstart (List.any_eq_true.mpr ⟨p, hp, by simp [hfst]⟩)
    simp [List.nodup_append, h, hk]

/-! ### State projection lemmas -/

theorem setCell_turtle_coords (s : SimState) (c : Coord) (v : List TRef) :
    (setCell s c v).turtle_coords = s.turtle_coords := rfl

theorem setCell_agents (s : SimState) (c : Coord) (v : List TRef) :
    (setCell s c v).agents = s.agents := rfl

theorem setCell_cfg (s : SimState) (c : Coord) (v : List TRef) :
    cfgOf (setCell s c v) = cfgOf s := rfl

theorem cellOcc_setCell_self (s : SimState) (c : Coord) (v : List TRef) :
    cellOcc (setCell s c v) c = v := by
  simp [cellOcc, setCell, amGet_amSet_self]

theorem cellOcc_setCell_ne (s : SimState) (c c' : Coord) (v : List TRef)
    (h : c' ≠ c) : cellOcc (setCell s c v) c' = cellOcc s c' := by
  simp [cellOcc, setCell, amGet_amSet_ne _ _ _ _ h]

theorem setAgent_coord_turtles (s : SimState) (r : ℕ) (d : AgentData) :
    (setAgent s r d).coord_turtles = s.coord_turtles := rfl

theorem setAgent_turtle_coords (s : SimState) (r : ℕ) (d : AgentData) :
    (setAgent s r d).turtle_coords = s.turtle_coords := rfl

theorem setAgent_cfg (s : SimState) (r : ℕ) (d : AgentData) :
    cfgOf (setAgent s r d) = cfgOf s := rfl

theorem getAgent_setAgent_self (s : SimState) (r : ℕ) (d : AgentData) :
    getAgent (setAgent s r d) r = d := by
  simp [getAgent, setAgent, amGet_amSet_self]

theorem getAgent_setAgent_ne (s : SimState) (r r' : ℕ) (d : AgentData)
    (h : r' ≠ r) : getAgent (setAgent s r d) r' = getAgent s r' := by
  simp [getAgent, setAgent, amGet_amSet_ne _ _ _ _ h]

theorem cellOcc_setAgent (s : SimState) (r : ℕ) (d : AgentData) (c : Coord) :
    cellOcc (setAgent s r d) c = cellOcc s c := rfl

theorem neighboursOf_setAgent (s : SimState) (r : ℕ) (d : AgentData) (c : Coord) :
    neighboursOf (setAgent s r d) c = neighboursOf s c := rfl

/-! ### `move_turtle` lemmas -/

theorem move_turtle_turtle_coords (s : SimState) (t : TRef) (src dst : Coord) :
    (move_turtle s t src dst).turtle_coords = amSet s.turtle_coords t dst := rfl

theorem move_turtle_agents (s : SimState) (t : TRef) (src dst : Coord) :
    (move_turtle s t src dst).agents = s.agents := rfl

theorem move_turtle_cfg (s : SimState) (t : TRef) (src dst : Coord) :
    cfgOf (move_turtle s t src dst) = cfgOf s := rfl

theorem cellOcc_move_turtle_other (s : SimState) (t : TRef) (src dst c : Coord)
    (hs : c ≠ src) (hd : c ≠ dst) :
    cellOcc (move_turtle s t src dst) c = cellOcc s c := by
  unfold move_turtle
  show cellOcc (setCell _ src _) c = _
  rw [cellOcc_setCell_ne _ _ _ _ hs, cellOcc_setCell_ne _ _ _ _ hd]

theorem cellOcc_move_turtle_dst (s : SimState) (t : TRef) (src dst : Coord)
    (h : dst ≠ src) :
    cellOcc (move_turtle s t src dst) dst = cellOcc s dst ++ [t] := by
  unfold move_turtle
  show cellOcc (setCell _ src _) dst = _
  rw [cellOcc_setCell_ne _ _ _ _ h, cellOcc_setCell_self]

theorem cellOcc_move_turtle_src (s : SimState) (t : TRef) (src dst : Coord)
    (h : dst ≠ src) :
    cellOcc (move_turtle s t src dst) src =
      (cellOcc s src).filter (fun x => decide (x ≠ t)) := by
  unfold move_turtle
  show cellOcc (setCell _ src _) src = _
  rw [cellOcc_setCell_self, cellOcc_setCell_ne _ _ _ _ (fun hh => h hh.symm)]

theorem cellOcc_move_turtle_self (s : SimState) (t : TRef) (src : Coord) :
    cellOcc (move_turtle s t src src) src =
      (cellOcc s src ++ [t]).filter (fun x => decide (x ≠ t)) := by
  unfold move_turtle
  show cellOcc (setCell _ src _) src = _
  rw [cellOcc_setCell_self, cellOcc_setCell_self]

/-! ### Grid and neighbour lemmas -/

theorem mem_allCoords (rows cols : ℕ) (c : Coord) :
    c ∈ allCoords rows cols ↔ c.1 < rows ∧ c.2 < cols := by
  obtain ⟨i, j⟩ := c
  simp [allCoords, List.mem_flatMap]

theorem wrapDelta_comm (extent a b : ℕ) : wrapDelta extent a b = wrapDelta extent b a := by
  unfold wrapDelta
  rw [max_comm, min_comm]

theorem wrapDelta_self (extent a : ℕ) : wrapDelta extent a a = 0 := by
  unfold wrapDelta
  simp

theorem inVision_comm (rows cols : ℕ) (vision : ℚ) (a b : Coord) :
    inVision rows cols vision a b = inVision rows cols vision b a := by
  unfold inVision
  rw [wrapDelta_comm rows a.1 b.1, wrapDelta_comm cols a.2 b.2]

theorem inVision_self (rows cols : ℕ) (vision : ℚ) (a : Coord) (h : 0 ≤ vision) :
    inVision rows cols vision a a = true := by
  unfold inVision
  simp [wrapDelta_self, h, sq_nonneg]

/-- The rational encoding of the in-radius test is exactly the source's
comparison `sqrt(dx² + dy²) <= vision` over the reals. -/
theorem inVision_iff_sqrt (rows cols : ℕ) (vision : ℚ) (a b : Coord) :
    inVision rows cols vision a b = true ↔
      Real.sqrt ((wrapDelta rows a.1 b.1 : ℝ) ^ 2 + (wrapDelta cols a.2 b.2 : ℝ) ^ 2) ≤
        (vision : ℝ) := by
  unfold inVision
  rw [Bool.and_eq_true, decide_eq_true_iff, decide_eq_true_iff]
  constructor
  · rintro ⟨h0, hsq⟩
    have h0' : (0 : ℝ) ≤ (vision : ℝ) := by exact_mod_cast h0
    have hsq' : (wrapDelta rows a.1 b.1 : ℝ) ^ 2 + (wrapDelta cols a.2 b.2 : ℝ) ^ 2 ≤
        (vision : ℝ) ^ 2 := by exact_mod_cast hsq
    calc Real.sqrt ((wrapDelta rows a.1 b.1 : ℝ) ^ 2 + (wrapDelta cols a.2 b.2 : ℝ) ^ 2)
        ≤ Real.sqrt ((vision : ℝ) ^ 2) := Real.sqrt_le_sqrt hsq'
    _ = (vision : ℝ) := Real.sqrt_sq h0'
  · intro h
    have hnn : (0 : ℝ) ≤ (wrapDelta rows a.1 b.1 : ℝ) ^ 2 + (wrapDelta cols a.2 b.2 : ℝ) ^ 2 := by
      positivity
    have h0' : (0 : ℝ) ≤ (vision : ℝ) := le_trans (Real.sqrt_nonneg _) h
    refine ⟨by exact_mod_cast h0', ?_⟩
    have := Real.sq_sqrt hnn
    have hsq : (wrapDelta rows a.1 b.1 : ℝ) ^ 2 + (wrapDelta cols a.2 b.2 : ℝ) ^ 2 ≤
        (vision : ℝ) ^ 2 := by
      calc (wrapDelta rows a.1 b.1 : ℝ) ^ 2 + (wrapDelta cols a.2 b.2 : ℝ) ^ 2
          = Real.sqrt ((wrapDelta rows a.1 b.1 : ℝ) ^ 2 + (wrapDelta cols a.2 b.2 : ℝ) ^ 2) ^ 2 :=
            (Real.sq_sqrt hnn).symm
      _ ≤ (vision : ℝ) ^ 2 := by
            exact pow_le_pow_left₀ (Real.sqrt_nonneg _) h 2
    exact_mod_cast hsq

theorem mem_coord_neighbours (rows cols : ℕ) (vision : ℚ) (c d : Coord) :
    d ∈ coord_neighbours rows cols vision c ↔
      (c.1 < rows ∧ c.2 < cols) ∧ (d.1 < rows ∧ d.2 < cols) ∧
        inVision rows cols vision c d = true := by
  unfold coord_neighbours
  by_cases hc : c.1 < rows ∧ c.2 < cols
  · simp [hc, List.mem_filter, mem_allCoords, and_assoc]
  · simp [hc]

/-! ### Claim C4: the neighbour relation is symmetric and self-inclusive -/

/-- **C4.** For any grid dimensions and vision radius, the precomputed
neighbour relation is symmetric (`B ∈ neighbours(A) ↔ A ∈ neighbours(B)`),
and every grid coordinate is in its own neighbour list whenever the vision is
non-negative, its wrap-distance to itself being `0`. -/
theorem claim_C4 (rows cols : ℕ) (vision : ℚ) (a b : Coord) :
    (b ∈ coord_neighbours rows cols vision a ↔ a ∈ coord_neighbours rows cols vision b) ∧
    (0 ≤ vision → a.1 < rows → a.2 < cols → a ∈ coord_neighbours rows cols vision a) := by
  constructor
  · rw [mem_coord_neighbours, mem_coord_neighbours, inVision_comm]
    tauto
  · intro hv h1 h2
    rw [mem_coord_neighbours]
    exact ⟨⟨h1, h2⟩, ⟨h1, h2⟩, inVision_self _ _ _ _ hv⟩

theorem claim_C4_witness :
    (((0, 1) : Coord) ∈ coord_neighbours 2 2 (3/2) (1, 1) ↔
      ((1, 1) : Coord) ∈ coord_neighbours 2 2 (3/2) (0, 1)) ∧
    ((1, 1) : Coord) ∈ coord_neighbours 2 2 (3/2) (1, 1) :=
  ⟨(claim_C4 2 2 (3/2) (1, 1) (0, 1)).1,
    (claim_C4 2 2 (3/2) (1, 1) (0, 1)).2 (by norm_num) (by norm_num) (by norm_num)⟩

/-! ### `selectPerm` lemmas -/

theorem subperm_map {α β : Type} (f : α → β) {l₁ l₂ : List α}
    (h : List.Subperm l₁ l₂) : List.Subperm (l₁.map f) (l₂.map f) := by
  rcases h with ⟨w, hperm, hsub⟩
  exact ⟨w.map f, hperm.map f, hsub.map f⟩

theorem subperm_nodup {α : Type} {l₁ l₂ : List α} (h : List.Subperm l₁ l₂)
    (hnd : l₂.Nodup) : l₁.Nodup := by
  rcases h with ⟨w, hperm, hsub⟩
  exact hperm.nodup_iff.mp (hsub.nodup hnd)

theorem cons_eraseIdx_perm {α : Type} [DecidableEq α] (l : List α) (i : ℕ) (y : α)
    (h : l.get? i = some y) : (y :: l.eraseIdx i).Perm l := by
  have hi : i < l.length := by
    by_contra hge
    rw [List.get?_eq_none.mpr (le_of_not_lt hge)] at h
    exact Option.noConfusion h
  have hy : l.get ⟨i, hi⟩ = y := by
    have hgg := List.get?_eq_get (l := l) hi
    rw [hgg] at h
    exact Option.some.inj h
  have hmem : y ∈ l := hy ▸ List.get_mem l i hi
  have h1 : l.Perm (y :: l.erase y) := List.perm_cons_erase hmem
  have hgetElem : l[i] = y := by
    rw [← List.get_eq_getElem l ⟨i, hi⟩]
    exact hy
  have h2 : (l.erase y).Perm (l.eraseIdx i) := by
    have herase := List.erase_getElem (l := l) (i := i) hi
    rw [hgetElem] at herase
    exact herase
  exact (h1.trans (h2.cons y)).symm

theorem selectPerm_subperm {α : Type} [DecidableEq α] (draws : ℕ → ℕ) :
    ∀ (fuel k : ℕ) (l : List α), List.Subperm (selectPerm draws k fuel l) l := by
  intro fuel
  induction fuel with
  | zero =>
      intro k l
      simp [selectPerm, List.nil_subperm]
  | succ n ih =>
      intro k l
      match l with
      | [] => simp [selectPerm, List.nil_subperm]
      | x :: xs =>
          rw [selectPerm]
          have hlen : draws k % (x :: xs).length < (x :: xs).length :=
            Nat.mod_lt _ (by simp)
          have hget : (x :: xs).get? (draws k % (x :: xs).length) =
              some ((x :: xs).get ⟨_, hlen⟩) := List.get?_eq_get hlen
          rw [hget]
          have hperm := cons_eraseIdx_perm (x :: xs) (draws k % (x :: xs).length)
            ((x :: xs).get ⟨_, hlen⟩) hget
          have hrec := ih (k + 1) ((x :: xs).eraseIdx (draws k % (x :: xs).length))
          exact List.Subperm.trans ((List.subperm_cons _).mpr hrec) hperm.subperm

theorem selectPerm_mem {α : Type} [DecidableEq α] (draws : ℕ → ℕ) (fuel k : ℕ)
    (l : List α) (x : α) (h : x ∈ selectPerm draws k fuel l) : x ∈ l :=
  (selectPerm_subperm draws fuel k l).subset h

theorem selectPerm_map_fst_nodup (draws : ℕ → ℕ) (fuel k : ℕ)
    (l : List (TRef × Coord)) (h : (l.map Prod.fst).Nodup) :
    ((selectPerm draws k fuel l).map Prod.fst).Nodup :=
  subperm_nodup (subperm_map Prod.fst (selectPerm_subperm draws fuel k l)) h

/-! ### Validation lemmas and claim C7 -/

theorem validate_value_ok_iff (nm : String) (v : PyVal) (t : PyType) (lo hi : ℚ) :
    validate_value nm v t lo hi = .ok () ↔
      (isinstance v t = true ∧ lo ≤ v.toQ ∧ v.toQ ≤ hi) := by
  unfold validate_value
  by_cases h1 : isinstance v t
  · by_cases h2 : lo ≤ v.toQ ∧ v.toQ ≤ hi <;> simp [h1, h2]
  · simp [h1]

theorem validate_value_error_eq (nm : String) (v : PyVal) (t : PyType) (lo hi : ℚ)
    (e : PyErr) (h : validate_value nm v t lo hi = .error e) :
    e = PyErr.typeError (nm ++ " must be a " ++ t.name ++ ".") ∨
    e = PyErr.valueError (nm ++ " must be in range.") := by
  unfold validate_value at h
  cases hb : isinstance v t with
  | false =>
      simp only [hb, Bool.false_eq_true, not_false_eq_true, if_true,
        Except.error.injEq] at h
      exact Or.inl h.symm
  | true =>
      by_cases h2 : lo ≤ v.toQ ∧ v.toQ ≤ hi
      · simp [hb, h2] at h
      · simp only [hb, h2, not_true_eq_false, if_false, not_false_eq_true, if_true,
          Except.error.injEq] at h
        exact Or.inr h.symm

theorem validate_parameters_ok_iff (cd ad vi gl mjt me : PyVal) :
    validate_parameters cd ad vi gl mjt me = .ok () ↔
      (validate_value "initial_cop_density" cd .float 0 100 = .ok () ∧
       validate_value "initial_agent_density" ad .int 0 100 = .ok () ∧
       validate_value "vision" vi .float 0 7 = .ok () ∧
       validate_value "government_legitimacy" gl .float 0 1 = .ok () ∧
       validate_value "max_jail_term" mjt .int 0 50 = .ok () ∧
       me.isBool = true ∧
       ¬ (cd.toQ + ad.toQ > 100)) := by
  unfold validate_parameters
  rcases h1 : validate_value "initial_cop_density" cd .float 0 100 with e1 | u1
  · simp [h1, Bind.bind, Except.bind]
  · rcases h2 : validate_value "initial_agent_density" ad .int 0 100 with e2 | u2
    · simp [h1, h2, Bind.bind, Except.bind]
    · rcases h3 : validate_value "vision" vi .float 0 7 with e3 | u3
      · simp [h1, h2, h3, Bind.bind, Except.bind]
      · rcases h4 : validate_value "government_legitimacy" gl .float 0 1 with e4 | u4
        · simp [h1, h2, h3, h4, Bind.bind, Except.bind]
        · rcases h5 : validate_value "max_jail_term" mjt .int 0 50 with e5 | u5
          · simp [h1, h2, h3, h4, h5, Bind.bind, Except.bind]
          · by_cases h6 : me.isBool
            · by_cases h7 : cd.toQ + ad.toQ > 100 <;>
                simp [h1, h2, h3, h4, h5, h6, h7, Bind.bind, Except.bind, throw,
                  throwThe, MonadExceptOf.throw, pure, Except.pure]
            · simp [h1, h2, h3, h4, h5, h6, Bind.bind, Except.bind, throw,
                throwThe, MonadExceptOf.throw]

theorem validate_parameters_error_kind (cd ad vi gl mjt me : PyVal) (e : PyErr)
    (h : validate_parameters cd ad vi gl mjt me = .error e) :
    (∃ m, e = PyErr.typeError m) ∨ (∃ m, e = PyErr.valueError m) := by
  unfold validate_parameters at h
  rcases h1 : validate_value "initial_cop_density" cd .float 0 100 with e1 | u1 <;>
    rw [h1] at h
  · replace h : e1 = e := by
      simpa [Bind.bind, Except.bind] using h
    rcases validate_value_error_eq _ _ _ _ _ _ h1 with he | he <;> rw [← h, he]
    · exact Or.inl ⟨_, rfl⟩
    · exact Or.inr ⟨_, rfl⟩
  · rcases h2 : validate_value "initial_agent_density" ad .int 0 100 with e2 | u2 <;>
      rw [h2] at h
    · replace h : e2 = e := by
        simpa [Bind.bind, Except.bind] using h
      rcases validate_value_error_eq _ _ _ _ _ _ h2 with he | he <;> rw [← h, he]
      · exact Or.inl ⟨_, rfl⟩
      · exact Or.inr ⟨_, rfl⟩
    · rcases h3 : validate_value "vision" vi .float 0 7 with e3 | u3 <;>
        rw [h3] at h
      · replace h : e3 = e := by
          simpa [Bind.bind, Except.bind] using h
        rcases validate_value_error_eq _ _ _ _ _ _ h3 with he | he <;> rw [← h, he]
        · exact Or.inl ⟨_, rfl⟩
        · exact Or.inr ⟨_, rfl⟩
      · rcases h4 : validate_value "government_legitimacy" gl .float 0 1 with e4 | u4 <;>
          rw [h4] at h
        · replace h : e4 = e := by
            simpa [Bind.bind, Except.bind] using h
          rcases validate_value_error_eq _ _ _ _ _ _ h4 with he | he <;> rw [← h, he]
          · exact Or.inl ⟨_, rfl⟩
          · exact Or.inr ⟨_, rfl⟩
        · rcases h5 : validate_value "max_jail_term" mjt .int 0 50 with e5 | u5 <;>
            rw [h5] at h
          · replace h : e5 = e := by
              simpa [Bind.bind, Except.bind] using h
            rcases validate_value_error_eq _ _ _ _ _ _ h5 with he | he <;> rw [← h, he]
            · exact Or.inl ⟨_, rfl⟩
            · exact Or.inr ⟨_, rfl⟩
          · by_cases h6 : me.isBool
            · by_cases h7 : cd.toQ + ad.toQ > 100
              · replace h : PyErr.valueError densitySumMsg = e := by
                  simpa [Bind.bind, Except.bind, h6, h7, throw, throwThe,
                    MonadExceptOf.throw, densitySumMsg, pure, Except.pure] using h
                exact Or.inr ⟨_, h.symm⟩
              · simp [Bind.bind, Except.bind, h6, h7, throw, throwThe,
                  MonadExceptOf.throw, pure, Except.pure] at h
            · replace h : PyErr.typeError "movement_enabled must be a boolean." = e := by
                simpa [Bind.bind, Except.bind, h6, throw, throwThe,
                  MonadExceptOf.throw, pure, Except.pure] using h
              exact Or.inl ⟨_, h.symm⟩

theorem validate_parameters_sum_error_last (cd ad vi gl mjt me : PyVal)
    (h : validate_parameters cd ad vi gl mjt me = .error (.valueError densitySumMsg)) :
    validate_value "initial_cop_density" cd .float 0 100 = .ok () ∧
    validate_value "initial_agent_density" ad .int 0 100 = .ok () ∧
    validate_value "vision" vi .float 0 7 = .ok () ∧
    validate_value "government_legitimacy" gl .float 0 1 = .ok () ∧
    validate_value "max_jail_term" mjt .int 0 50 = .ok () ∧
    me.isBool = true := by
  unfold validate_parameters at h
  rcases h1 : validate_value "initial_cop_density" cd .float 0 100 with e1 | u1 <;>
    rw [h1] at h
  · exfalso
    replace h : e1 = PyErr.valueError densitySumMsg := by
      simpa [Bind.bind, Except.bind] using h
    rcases validate_value_error_eq _ _ _ _ _ _ h1 with he | he <;> rw [he] at h <;>
      revert h <;> decide
  · rcases h2 : validate_value "initial_agent_density" ad .int 0 100 with e2 | u2 <;>
      rw [h2] at h
    · exfalso
      replace h : e2 = PyErr.valueError densitySumMsg := by
        simpa [Bind.bind, Except.bind] using h
      rcases validate_value_error_eq _ _ _ _ _ _ h2 with he | he <;> rw [he] at h <;>
        revert h <;> decide
    · rcases h3 : validate_value "vision" vi .float 0 7 with e3 | u3 <;>
        rw [h3] at h
      · exfalso
        replace h : e3 = PyErr.valueError densitySumMsg := by
          simpa [Bind.bind, Except.bind] using h
        rcases validate_value_error_eq _ _ _ _ _ _ h3 with he | he <;> rw [he] at h <;>
          revert h <;> decide
      · rcases h4 : validate_value "government_legitimacy" gl .float 0 1 with e4 | u4 <;>
          rw [h4] at h
        · exfalso
          replace h : e4 = PyErr.valueError densitySumMsg := by
            simpa [Bind.bind, Except.bind] using h
          rcases validate_value_error_eq _ _ _ _ _ _ h4 with he | he <;> rw [he] at h <;>
            revert h <;> decide
        · rcases h5 : validate_value "max_jail_term" mjt .int 0 50 with e5 | u5 <;>
            rw [h5] at h
          · exfalso
            replace h : e5 = PyErr.valueError densitySumMsg := by
              simpa [Bind.bind, Except.bind] using h
            rcases validate_value_error_eq _ _ _ _ _ _ h5 with he | he <;> rw [he] at h <;>
              revert h <;> decide
          · by_cases h6 : me.isBool
            · exact ⟨rfl, rfl, rfl, rfl, rfl, h6⟩
            · exfalso
              simp [Bind.bind, Except.bind, h6, throw, throwThe,
                MonadExceptOf.throw, pure, Except.pure, densitySumMsg] at h

theorem validate_value_error_kind (nm : String) (v : PyVal) (t : PyType) (lo hi : ℚ)
    (e : PyErr) (h : validate_value nm v t lo hi = .error e) :
    (∃ m, e = PyErr.typeError m) ∨ (∃ m, e = PyErr.valueError m) := by
  rcases validate_value_error_eq _ _ _ _ _ _ h with he | he
  · exact Or.inl ⟨_, he⟩
  · exact Or.inr ⟨_, he⟩

theorem setup_of_validate_error (max_pxcor max_pycor : ℕ)
    (cd ad vi gl mjt me agg : PyVal) (strm : Streams) (e : PyErr)
    (h : validate_parameters cd ad vi gl mjt me = .error e) :
    setup max_pxcor max_pycor cd ad vi gl mjt me agg strm = .error e := by
  unfold setup
  rw [h]

/-- **C7 (amended).** For every call to `setup` or to a post-setup mutator
with one of the six *validated* parameters (`initial_cop_density`,
`initial_agent_density`, `vision`, `government_legitimacy`, `max_jail_term`,
`movement_enabled`) outside its declared type or numeric range, or with
`cop density + agent density` exceeding `100`, the call returns a
configuration error (`TypeError` or `ValueError`) before mutating any
simulation state, and the density-sum constraint is checked only after all
individual bounds.  (The claim's universal "every parameter" fails for
`setup`'s seventh parameter `aggregate_greivance`, which is declared `bool`
but never validated — see the counterexample.)  Conjuncts: (1) a validation
error makes `setup` return that same error, of `TypeError`/`ValueError` kind,
with no state produced; (2) validation succeeds exactly when the six
parameters satisfy their declared types and ranges and the density sum is at
most 100; (3) a density-sum error implies every individual check passed;
(4)–(6) each mutator errors whenever its parameter violates its declared type
or range, without updating the state. -/
theorem claim_C7 :
    (∀ (max_pxcor max_pycor : ℕ) (cd ad vi gl mjt me agg : PyVal)
       (strm : Streams) (e : PyErr),
       validate_parameters cd ad vi gl mjt me = .error e →
       setup max_pxcor max_pycor cd ad vi gl mjt me agg strm = .error e ∧
         ((∃ m, e = PyErr.typeError m) ∨ (∃ m, e = PyErr.valueError m))) ∧
    (∀ cd ad vi gl mjt me : PyVal,
       validate_parameters cd ad vi gl mjt me = .ok () ↔
         ((cd.isFloat = true ∧ 0 ≤ cd.toQ ∧ cd.toQ ≤ 100) ∧
          (ad.isInt = true ∧ 0 ≤ ad.toQ ∧ ad.toQ ≤ 100) ∧
          (vi.isFloat = true ∧ 0 ≤ vi.toQ ∧ vi.toQ ≤ 7) ∧
          (gl.isFloat = true ∧ 0 ≤ gl.toQ ∧ gl.toQ ≤ 1) ∧
          (mjt.isInt = true ∧ 0 ≤ mjt.toQ ∧ mjt.toQ ≤ 50) ∧
          me.isBool = true ∧ ¬ (cd.toQ + ad.toQ > 100))) ∧
    (∀ cd ad vi gl mjt me : PyVal,
       validate_parameters cd ad vi gl mjt me = .error (.valueError densitySumMsg) →
       validate_value "initial_cop_density" cd .float 0 100 = .ok () ∧
       validate_value "initial_agent_density" ad .int 0 100 = .ok () ∧
       validate_value "vision" vi .float 0 7 = .ok () ∧
       validate_value "government_legitimacy" gl .float 0 1 = .ok () ∧
       validate_value "max_jail_term" mjt .int 0 50 = .ok () ∧
       me.isBool = true) ∧
    (∀ (s : SimState) (v : PyVal), ¬ (v.isFloat = true ∧ 0 ≤ v.toQ ∧ v.toQ ≤ 1) →
       ∃ e, update_government_legitimacy s v = .error e ∧
         ((∃ m, e = PyErr.typeError m) ∨ (∃ m, e = PyErr.valueError m))) ∧
    (∀ (s : SimState) (v : PyVal), ¬ (v.isInt = true ∧ 0 ≤ v.toQ ∧ v.toQ ≤ 50) →
       ∃ e, update_max_jail_term s v = .error e ∧
         ((∃ m, e = PyErr.typeError m) ∨ (∃ m, e = PyErr.valueError m))) ∧
    (∀ (s : SimState) (v : PyVal), v.isBool = false →
       ∃ m, update_movement_enabled s v = .error (PyErr.typeError m)) := by
  refine ⟨?_, ?_, ?_, ?_, ?_, ?_⟩
  · intro px py cd ad vi gl mjt me agg strm e h
    exact ⟨setup_of_validate_error px py cd ad vi gl mjt me agg strm e h,
      validate_parameters_error_kind cd ad vi gl mjt me e h⟩
  · intro cd ad vi gl mjt me
    rw [validate_parameters_ok_iff]
    simp only [validate_value_ok_iff]
    constructor
    · rintro ⟨a, b, c, d, e, f, g⟩
      exact ⟨a, b, c, d, e, f, g⟩
    · rintro ⟨a, b, c, d, e, f, g⟩
      exact ⟨a, b, c, d, e, f, g⟩
  · exact validate_parameters_sum_error_last
  · intro s v hbad
    rcases hres : validate_value "government_legitimacy" v .float 0 1 with e | u
    · refine ⟨e, ?_, validate_value_error_kind _ _ _ _ _ _ hres⟩
      unfold update_government_legitimacy
      rw [hres]
    · exfalso
      cases u
      rw [validate_value_ok_iff] at hres
      exact hbad hres
  · intro s v hbad
    rcases hres : validate_value "max_jail_term" v .int 0 50 with e | u
    · refine ⟨e, ?_, validate_value_error_kind _ _ _ _ _ _ hres⟩
      unfold update_max_jail_term
      rw [hres]
    · exfalso
      cases u
      rw [validate_value_ok_iff] at hres
      exact hbad hres
  · intro s v hbad
    refine ⟨"movement_enabled must be a boolean.", ?_⟩
    unfold update_movement_enabled
    simp [hbad]

/-- **C7 counterexample.** The claim as stated is false: `setup`'s
`aggregate_greivance` parameter is declared `bool` in its docstring yet is
never validated, so a call passing the non-boolean `int 2` for it completes
successfully (creating state) instead of raising a configuration error. -/
theorem claim_C7_counterexample :
    (PyVal.int 2).isBool = false ∧ ce7Setup = Except.ok ce7_s0 ∧ ce7_s0.agents ≠ [] := by
  refine ⟨rfl, by with_unfolding_all rfl, by with_unfolding_all decide⟩

theorem claim_C7_witness :
    setup 1 0 (.float 50) (.int 50) (.float 8) (.float 0) (.int 1) (.bool false)
      (.bool false) ceStrm = .error (.valueError "vision must be in range.") ∧
    ∃ m, update_movement_enabled emptyState (.int 3) = .error (PyErr.typeError m) := by
  constructor
  · exact (claim_C7.1 1 0 (.float 50) (.int 50) (.float 8) (.float 0) (.int 1)
      (.bool false) (.bool false) ceStrm _ (by with_unfolding_all rfl)).1
  · exact claim_C7.2.2.2.2.2 emptyState (.int 3) rfl

/-! ### Claim C8: `setup` is deterministic given its random draws -/

theorem placeCops_streams_eq (strm1 strm2 : Streams) :
    ∀ (n k cid : ℕ) (pool : List Coord) (s : SimState),
    (∀ j, j < n → strm1.place_ints (k + j) = strm2.place_ints (k + j)) →
    placeCops strm1 n k cid pool s = placeCops strm2 n k cid pool s := by
  intro n
  induction n with
  | zero => intro k cid pool s _; rfl
  | succ m ih =>
      intro k cid pool s h
      unfold placeCops
      have h0 : strm1.place_ints k = strm2.place_ints k := by
        simpa using h 0 (Nat.succ_pos m)
      rw [h0]
      rcases hr : pickPool pool (strm2.place_ints k) with e | ⟨rc, pool1⟩
      · rfl
      · exact ih (k + 1) (cid + 1) pool1 _ (fun j hj => by
          have e : k + 1 + j = k + (j + 1) := by omega
          rw [e]
          exact h (j + 1) (by omega))

theorem placeCops_counter (strm : Streams) :
    ∀ (n k cid : ℕ) (pool : List Coord) (s : SimState) (s' : SimState)
      (pool' : List Coord) (k' : ℕ),
    placeCops strm n k cid pool s = .ok (s', pool', k') → k' = k + n := by
  intro n
  induction n with
  | zero =>
      intro k cid pool s s' pool' k' h
      unfold placeCops at h
      injection h with h
      injection h with h1 h
      injection h with h2 h3
      omega
  | succ m ih =>
      intro k cid pool s s' pool' k' h
      unfold placeCops at h
      rcases hr : pickPool pool (strm.place_ints k) with e | ⟨rc, pool1⟩ <;>
        rw [hr] at h
      · exact Except.noConfusion h
      · have := ih (k + 1) (cid + 1) pool1 _ s' pool' k' h
        omega

theorem placeAgents_streams_eq (strm1 strm2 : Streams) (agg : Bool) :
    ∀ (n k aid : ℕ) (pool : List Coord) (s : SimState),
    (∀ j, j < n → strm1.place_ints (k + j) = strm2.place_ints (k + j)) →
    (∀ j, j < n → strm1.hardship_draws (aid + j) = strm2.hardship_draws (aid + j)) →
    (∀ j, j < n → strm1.aversion_draws (aid + j) = strm2.aversion_draws (aid + j)) →
    placeAgents strm1 agg n k aid pool s = placeAgents strm2 agg n k aid pool s := by
  intro n
  induction n with
  | zero => intro k aid pool s _ _ _; rfl
  | succ m ih =>
      intro k aid pool s hp hh ha
      unfold placeAgents
      have h0 : strm1.place_ints k = strm2.place_ints k := by
        simpa using hp 0 (Nat.succ_pos m)
      have hh0 : strm1.hardship_draws aid = strm2.hardship_draws aid := by
        simpa using hh 0 (Nat.succ_pos m)
      have ha0 : strm1.aversion_draws aid = strm2.aversion_draws aid := by
        simpa using ha 0 (Nat.succ_pos m)
      rw [h0]
      rcases hr : pickPool pool (strm2.place_ints k) with e | ⟨rc, pool1⟩
      · rfl
      · have hstate : placeAgentState strm1 agg s aid rc =
            placeAgentState strm2 agg s aid rc := by
          unfold placeAgentState
          rw [hh0, ha0]
        have hrec : placeAgents strm1 agg m (k + 1) (aid + 1) pool1
            (placeAgentState strm1 agg s aid rc) =
            placeAgents strm2 agg m (k + 1) (aid + 1) pool1
            (placeAgentState strm2 agg s aid rc) := by
          rw [hstate]
          exact ih (k + 1) (aid + 1) pool1 _
            (fun j hj => by
              have e : k + 1 + j = k + (j + 1) := by omega
              rw [e]
              exact hp (j + 1) (by omega))
            (fun j hj => by
              have e : aid + 1 + j = aid + (j + 1) := by omega
              rw [e]
              exact hh (j + 1) (by omega))
            (fun j hj => by
              have e : aid + 1 + j = aid + (j + 1) := by omega
              rw [e]
              exact ha (j + 1) (by omega))
        exact hrec

/-- **C8.** `setup` is deterministic given a fixed random source: its result
(including every placement and every agent's drawn attributes) depends only
on the placement draws `0 ≤ k < num_cops + num_agents` and the per-agent
hardship and risk-aversion draws `0 ≤ k < num_agents`; two streams agreeing
there produce identical states (identical cells for cops and agents, and
identical attributes for the actors placed at corresponding draws). -/
theorem claim_C8 (max_pxcor max_pycor : ℕ) (cd ad vi gl mjt me agg : PyVal)
    (strm1 strm2 : Streams)
    (hp : ∀ k, k < cop_count max_pxcor max_pycor cd +
        agent_count max_pxcor max_pycor ad →
        strm1.place_ints k = strm2.place_ints k)
    (hh : ∀ k, k < agent_count max_pxcor max_pycor ad →
        strm1.hardship_draws k = strm2.hardship_draws k)
    (ha : ∀ k, k < agent_count max_pxcor max_pycor ad →
        strm1.aversion_draws k = strm2.aversion_draws k) :
    setup max_pxcor max_pycor cd ad vi gl mjt me agg strm1 =
      setup max_pxcor max_pycor cd ad vi gl mjt me agg strm2 := by
  unfold setup
  rcases hv : validate_parameters cd ad vi gl mjt me with e | u
  · rfl
  · show setupPlace strm1 agg.truthy (cop_count max_pxcor max_pycor cd)
      (agent_count max_pxcor max_pycor ad) (max_pycor + 1) (max_pxcor + 1)
      (initState max_pxcor max_pycor cd ad vi gl mjt me) =
      setupPlace strm2 agg.truthy (cop_count max_pxcor max_pycor cd)
      (agent_count max_pxcor max_pycor ad) (max_pycor + 1) (max_pxcor + 1)
      (initState max_pxcor max_pycor cd ad vi gl mjt me)
    unfold setupPlace
    have hcops : placeCops strm1 (cop_count max_pxcor max_pycor cd) 0 0
        (allCoords (max_pycor + 1) (max_pxcor + 1))
        (initState max_pxcor max_pycor cd ad vi gl mjt me) =
        placeCops strm2 (cop_count max_pxcor max_pycor cd) 0 0
        (allCoords (max_pycor + 1) (max_pxcor + 1))
        (initState max_pxcor max_pycor cd ad vi gl mjt me) :=
      placeCops_streams_eq strm1 strm2 _ 0 0 _ _ (fun j hj => by
        have e : (0 : ℕ) + j = j := by omega
        rw [e]
        exact hp j (by omega))
    rw [hcops]
    rcases hc : placeCops strm2 (cop_count max_pxcor max_pycor cd) 0 0
        (allCoords (max_pycor + 1) (max_pxcor + 1))
        (initState max_pxcor max_pycor cd ad vi gl mjt me) with e1 | res
    · rfl
    · obtain ⟨s1, pool1, k1⟩ := res
      show setupAgentsPhase strm1 agg.truthy (agent_count max_pxcor max_pycor ad)
        k1 pool1 s1 =
        setupAgentsPhase strm2 agg.truthy (agent_count max_pxcor max_pycor ad)
        k1 pool1 s1
      have hk1 : k1 = cop_count max_pxcor max_pycor cd := by
        have := placeCops_counter strm2 _ 0 0 _ _ s1 pool1 k1 hc
        omega
      subst hk1
      unfold setupAgentsPhase
      have hagents : placeAgents strm1 agg.truthy
          (agent_count max_pxcor max_pycor ad)
          (cop_count max_pxcor max_pycor cd) 0 pool1 s1 =
          placeAgents strm2 agg.truthy
          (agent_count max_pxcor max_pycor ad)
          (cop_count max_pxcor max_pycor cd) 0 pool1 s1 :=
        placeAgents_streams_eq strm1 strm2 agg.truthy _ _ 0 pool1 s1
          (fun j hj => hp (cop_count max_pxcor max_pycor cd + j) (by omega))
          (fun j hj => by
            have e : (0 : ℕ) + j = j := by omega
            rw [e]
            exact hh j (by omega))
          (fun j hj => by
            have e : (0 : ℕ) + j = j := by omega
            rw [e]
            exact ha j (by omega))
      rw [hagents]

theorem claim_C8_witness :
    setup 1 0 (.float 50) (.int 50) (.float 7) (.float 0) (.int 1) (.bool false)
      (.bool false) ceStrm =
    setup 1 0 (.float 50) (.int 50) (.float 7) (.float 0) (.int 1) (.bool false)
      (.bool false) ceStrmB :=
  claim_C8 1 0 (.float 50) (.int 50) (.float 7) (.float 0) (.int 1) (.bool false)
    (.bool false) ceStrm ceStrmB
    (by with_unfolding_all decide)
    (by with_unfolding_all decide)
    (by with_unfolding_all decide)

/-! ### Placement lemmas (`setup` establishes the invariant) -/

theorem any_key_iff_mem {κ ν : Type} [DecidableEq κ] (l : List (κ × ν)) (k : κ) :
    (l.any (fun p => decide (p.1 = k))) = true ↔ k ∈ l.map Prod.fst := by
  rw [List.any_eq_true]
  constructor
  · rintro ⟨p, hp, hk⟩
    rw [decide_eq_true_iff] at hk
    exact hk ▸ List.mem_map_of_mem Prod.fst hp
  · intro hmem
    rcases List.mem_map.mp hmem with ⟨p, hp, hk⟩
    exact ⟨p, hp, by simp [hk]⟩

theorem pickPool_ok (pool : List Coord) (draw : ℕ) (rc : Coord) (pool' : List Coord)
    (h : pickPool pool draw = .ok (rc, pool')) :
    rc ∈ pool ∧ List.Sublist pool' pool ∧
      (pool.Nodup → rc ∉ pool' ∧ pool'.Nodup) := by
  unfold pickPool at h
  rcases hr : randrange (pool.length : ℤ) draw with e | i
  · rw [hr] at h
    simp at h
  · rw [hr] at h
    replace h : (match pool.get? i with
      | none => Except.error PyErr.keyError
      | some rc => Except.ok (rc, pool.eraseIdx i)) = Except.ok (rc, pool') := h
    rcases hg : pool.get? i with _ | rc0 <;> rw [hg] at h
    · simp at h
    · replace h : Except.ok (rc0, pool.eraseIdx i) =
        (Except.ok (rc, pool') : Except PyErr (Coord × List Coord)) := h
      injection h with h
      injection h with h1 h2
      refine ⟨?_, ?_, ?_⟩
      · rw [← h1]
        exact List.get?_mem hg
      · rw [← h2]
        exact List.eraseIdx_sublist pool i
      · intro hnd
        rw [← h1, ← h2]
        have hperm := cons_eraseIdx_perm pool i rc0 hg
        have hcons : (rc0 :: pool.eraseIdx i).Nodup := hperm.nodup_iff.mpr hnd
        rw [List.nodup_cons] at hcons
        exact hcons

theorem allCoords_nodup (rows cols : ℕ) : (allCoords rows cols).Nodup := by
  unfold allCoords
  rw [List.nodup_flatMap]
  constructor
  · intro i _
    exact (List.nodup_range cols).map (fun a b hab => by injection hab)
  · have hpw := (List.nodup_range rows)
    rw [List.Nodup] at hpw
    refine hpw.imp ?_
    intro a b hne
    simp only [Function.onFun]
    rw [List.disjoint_left]
    intro x hxa hxb
    rcases List.mem_map.mp hxa with ⟨ja, _, hja⟩
    rcases List.mem_map.mp hxb with ⟨jb, _, hjb⟩
    apply hne
    have h1 : a = x.1 := by rw [← hja]
    rw [h1, ← hjb]

theorem agentKeyCount_amSet_cop (l : List (TRef × Coord)) (i : ℕ) (c : Coord) :
    agentKeyCount (amSet l (TRef.cop i) c) = agentKeyCount l := by
  unfold agentKeyCount
  by_cases hany : l.any (fun p => decide (p.1 = TRef.cop i))
  · rw [amSet_map_fst_of_any l _ c hany]
  · rw [amSet_map_fst_of_not_any l _ c hany, List.countP_append]
    simp [isAgentRef]

theorem agentKeyCount_amSet_agent_fresh (l : List (TRef × Coord)) (i : ℕ) (c : Coord)
    (h : TRef.agent i ∉ l.map Prod.fst) :
    agentKeyCount (amSet l (TRef.agent i) c) = agentKeyCount l + 1 := by
  unfold agentKeyCount
  have hany : ¬ (l.any (fun p => decide (p.1 = TRef.agent i))) = true := by
    rw [any_key_iff_mem]
    exact h
  rw [amSet_map_fst_of_not_any l _ c hany, List.countP_append]
  simp [isAgentRef]

theorem placeCopState_turtle_coords (s : SimState) (cid : ℕ) (rc : Coord) :
    (placeCopState s cid rc).turtle_coords = amSet s.turtle_coords (TRef.cop cid) rc := rfl

theorem placeCopState_cellOcc (s : SimState) (cid : ℕ) (rc : Coord) (c : Coord) :
    cellOcc (placeCopState s cid rc) c = cellOcc (setCell s rc [TRef.cop cid]) c := rfl

theorem placeCopState_agents (s : SimState) (cid : ℕ) (rc : Coord) :
    (placeCopState s cid rc).agents = s.agents := rfl

theorem placeCopState_cfg (s : SimState) (cid : ℕ) (rc : Coord) :
    cfgOf (placeCopState s cid rc) = cfgOf s := rfl

theorem placeCopState_rows (s : SimState) (cid : ℕ) (rc : Coord) :
    (placeCopState s cid rc).num_rows = s.num_rows := rfl

theorem placeCopState_cols (s : SimState) (cid : ℕ) (rc : Coord) :
    (placeCopState s cid rc).num_cols = s.num_cols := rfl

theorem placeCop_step_inv (cid aid : ℕ) (pool : List Coord) (s : SimState)
    (rc : Coord) (pool1 : List Coord)
    (hinv : PlaceInv cid aid pool s) (hrc : rc ∈ pool)
    (hsub : List.Sublist pool1 pool) (hnotin : rc ∉ pool1) (hnd1 : pool1.Nodup) :
    PlaceInv (cid + 1) aid pool1 (placeCopState s cid rc) := by
  have hfresh : TRef.cop cid ∉ s.turtle_coords.map Prod.fst :=
    hinv.copFresh cid le_rfl
  have hkeys : (amSet s.turtle_coords (TRef.cop cid) rc).map Prod.fst =
      s.turtle_coords.map Prod.fst ++ [TRef.cop cid] := by
    refine amSet_map_fst_of_not_any _ _ _ ?_
    rw [any_key_iff_mem]
    exact hfresh
  refine ⟨?_, ?_, ?_, hnd1, ?_, ?_, ?_, ?_, ?_, ?_, ?_⟩
  · rw [placeCopState_turtle_coords]
    exact amSet_keys_nodup _ _ _ hinv.keysND
  · intro r c hget
    have hne : TRef.agent r ≠ TRef.cop cid := fun hco => TRef.noConfusion hco
    rw [placeCopState_turtle_coords, amGet_amSet_ne _ _ _ _ hne] at hget
    have hmem := hinv.placed r c hget
    have hcne : c ≠ rc := by
      intro hceq
      exact (hinv.poolFree _ _ hget) (hceq ▸ hrc)
    rw [placeCopState_cellOcc, cellOcc_setCell_ne s rc c _ hcne]
    exact hmem
  · intro t c hget
    rw [placeCopState_rows, placeCopState_cols]
    by_cases ht : t = TRef.cop cid
    · subst ht
      rw [placeCopState_turtle_coords, amGet_amSet_self] at hget
      injection hget with hget
      subst hget
      exact hinv.poolGrid rc hrc
    · rw [placeCopState_turtle_coords, amGet_amSet_ne _ _ _ _ ht] at hget
      exact hinv.inGrid t c hget
  · intro c hc
    rw [placeCopState_rows, placeCopState_cols]
    exact hinv.poolGrid c (hsub.subset hc)
  · intro t c hget
    by_cases ht : t = TRef.cop cid
    · subst ht
      rw [placeCopState_turtle_coords, amGet_amSet_self] at hget
      injection hget with hget
      subst hget
      exact hnotin
    · rw [placeCopState_turtle_coords, amGet_amSet_ne _ _ _ _ ht] at hget
      intro hmem
      exact (hinv.poolFree t c hget) (hsub.subset hmem)
  · intro i hi
    rw [placeCopState_turtle_coords, hkeys, List.mem_append]
    rintro (hmem | hmem)
    · exact hinv.copFresh i (by omega) hmem
    · have heq := List.mem_singleton.mp hmem
      have : i = cid := by injection heq
      omega
  · intro i hi
    rw [placeCopState_turtle_coords, hkeys, List.mem_append]
    rintro (hmem | hmem)
    · exact hinv.agentFresh i hi hmem
    · exact TRef.noConfusion (List.mem_singleton.mp hmem)
  · rw [show (placeCopState s cid rc).agents = s.agents from rfl]
    exact hinv.agentsND
  · intro i hi
    rw [show (placeCopState s cid rc).agents = s.agents from rfl]
    exact hinv.agentsFresh i hi
  · intro r
    rw [show getAgent (placeCopState s cid rc) r = getAgent s r from rfl]
    exact hinv.jailZero r

theorem placeAgentState_turtle_coords (strm : Streams) (agg : Bool) (s : SimState)
    (aid : ℕ) (rc : Coord) :
    (placeAgentState strm agg s aid rc).turtle_coords =
      amSet s.turtle_coords (TRef.agent aid) rc := rfl

theorem placeAgentState_cellOcc (strm : Streams) (agg : Bool) (s : SimState)
    (aid : ℕ) (rc : Coord) (c : Coord) :
    cellOcc (placeAgentState strm agg s aid rc) c =
      cellOcc (setCell s rc [TRef.agent aid]) c := rfl

theorem placeAgentState_agents (strm : Streams) (agg : Bool) (s : SimState)
    (aid : ℕ) (rc : Coord) :
    ∃ h1 : ℚ, (placeAgentState strm agg s aid rc).agents =
      amSet s.agents aid ⟨h1, strm.aversion_draws aid, false, 0⟩ := ⟨_, rfl⟩

theorem placeAgentState_cfg (strm : Streams) (agg : Bool) (s : SimState)
    (aid : ℕ) (rc : Coord) :
    cfgOf (placeAgentState strm agg s aid rc) = cfgOf s := rfl

theorem placeAgent_step_inv (strm : Streams) (agg : Bool) (cid aid : ℕ)
    (pool : List Coord) (s : SimState) (rc : Coord) (pool1 : List Coord)
    (hinv : PlaceInv cid aid pool s) (hrc : rc ∈ pool)
    (hsub : List.Sublist pool1 pool) (hnotin : rc ∉ pool1) (hnd1 : pool1.Nodup) :
    PlaceInv cid (aid + 1) pool1 (placeAgentState strm agg s aid rc) := by
  have hfresh : TRef.agent aid ∉ s.turtle_coords.map Prod.fst :=
    hinv.agentFresh aid le_rfl
  have hkeys : (amSet s.turtle_coords (TRef.agent aid) rc).map Prod.fst =
      s.turtle_coords.map Prod.fst ++ [TRef.agent aid] := by
    refine amSet_map_fst_of_not_any _ _ _ ?_
    rw [any_key_iff_mem]
    exact hfresh
  have hafresh : aid ∉ s.agents.map Prod.fst := hinv.agentsFresh aid le_rfl
  obtain ⟨h1, hagents⟩ := placeAgentState_agents strm agg s aid rc
  refine ⟨?_, ?_, ?_, hnd1, ?_, ?_, ?_, ?_, ?_, ?_, ?_⟩
  · rw [placeAgentState_turtle_coords]
    exact amSet_keys_nodup _ _ _ hinv.keysND
  · intro r c hget
    rw [placeAgentState_turtle_coords] at hget
    by_cases hr : r = aid
    · subst hr
      rw [amGet_amSet_self] at hget
      injection hget with hget
      subst hget
      rw [placeAgentState_cellOcc, cellOcc_setCell_self]
      exact List.mem_singleton.mpr rfl
    · have hne : TRef.agent r ≠ TRef.agent aid := by
        intro hco
        exact hr (by injection hco)
      rw [amGet_amSet_ne _ _ _ _ hne] at hget
      have hmem := hinv.placed r c hget
      have hcne : c ≠ rc := by
        intro hceq
        exact (hinv.poolFree _ _ hget) (hceq ▸ hrc)
      rw [placeAgentState_cellOcc, cellOcc_setCell_ne s rc c _ hcne]
      exact hmem
  · intro t c hget
    rw [placeAgentState_turtle_coords] at hget
    rw [show (placeAgentState strm agg s aid rc).num_rows = s.num_rows from rfl,
      show (placeAgentState strm agg s aid rc).num_cols = s.num_cols from rfl]
    by_cases ht : t = TRef.agent aid
    · subst ht
      rw [amGet_amSet_self] at hget
      injection hget with hget
      subst hget
      exact hinv.poolGrid rc hrc
    · rw [amGet_amSet_ne _ _ _ _ ht] at hget
      exact hinv.inGrid t c hget
  · intro c hc
    rw [show (placeAgentState strm agg s aid rc).num_rows = s.num_rows from rfl,
      show (placeAgentState strm agg s aid rc).num_cols = s.num_cols from rfl]
    exact hinv.poolGrid c (hsub.subset hc)
  · intro t c hget
    rw [placeAgentState_turtle_coords] at hget
    by_cases ht : t = TRef.agent aid
    · subst ht
      rw [amGet_amSet_self] at hget
      injection hget with hget
      subst hget
      exact hnotin
    · rw [amGet_amSet_ne _ _ _ _ ht] at hget
      intro hmem
      exact (hinv.poolFree t c hget) (hsub.subset hmem)
  · intro i hi
    rw [placeAgentState_turtle_coords, hkeys, List.mem_append]
    rintro (hmem | hmem)
    · exact hinv.copFresh i hi hmem
    · exact TRef.noConfusion (List.mem_singleton.mp hmem)
  · intro i hi
    rw [placeAgentState_turtle_coords, hkeys, List.mem_append]
    rintro (hmem | hmem)
    · exact hinv.agentFresh i (by omega) hmem
    · have heq := List.mem_singleton.mp hmem
      have : i = aid := by injection heq
      omega
  · rw [hagents]
    exact amSet_keys_nodup _ _ _ hinv.agentsND
  · intro i hi
    rw [hagents]
    have hk : (amSet s.agents aid (⟨h1, strm.aversion_draws aid, false, 0⟩ : AgentData)).map
        Prod.fst = s.agents.map Prod.fst ++ [aid] := by
      refine amSet_map_fst_of_not_any _ _ _ ?_
      rw [any_key_iff_mem]
      exact hafresh
    rw [hk, List.mem_append]
    rintro (hmem | hmem)
    · exact hinv.agentsFresh i (by omega) hmem
    · have : i = aid := List.mem_singleton.mp hmem
      omega
  · intro r
    show ((amGet (placeAgentState strm agg s aid rc).agents r).getD agentDefault).jail_term = 0
    rw [hagents]
    by_cases hr : r = aid
    · subst hr
      rw [amGet_amSet_self]
      rfl
    · rw [amGet_amSet_ne _ _ _ _ hr]
      exact hinv.jailZero r

theorem placeCops_inv (strm : Streams) :
    ∀ (n k cid aid : ℕ) (pool : List Coord) (s s' : SimState)
      (pool' : List Coord) (k' : ℕ),
    placeCops strm n k cid pool s = .ok (s', pool', k') →
    PlaceInv cid aid pool s →
    PlaceInv (cid + n) aid pool' s' ∧ cfgOf s' = cfgOf s ∧
      agentKeyCount s'.turtle_coords = agentKeyCount s.turtle_coords := by
  intro n
  induction n with
  | zero =>
      intro k cid aid pool s s' pool' k' h hinv
      unfold placeCops at h
      injection h with h
      injection h with h1 h
      injection h with h2 h3
      subst h1
      subst h2
      exact ⟨hinv, rfl, rfl⟩
  | succ m ih =>
      intro k cid aid pool s s' pool' k' h hinv
      unfold placeCops at h
      rcases hr : pickPool pool (strm.place_ints k) with e | ⟨rc, pool1⟩ <;>
        rw [hr] at h
      · exact Except.noConfusion h
      · obtain ⟨hrc, hsub, hnd⟩ := pickPool_ok pool _ rc pool1 hr
        obtain ⟨hnotin, hnd1⟩ := hnd hinv.poolND
        have hstep := placeCop_step_inv cid aid pool s rc pool1 hinv hrc hsub hnotin hnd1
        obtain ⟨hinv', hcfg, hcount⟩ :=
          ih (k + 1) (cid + 1) aid pool1 (placeCopState s cid rc) s' pool' k' h hstep
        refine ⟨?_, ?_, ?_⟩
        · have e : cid + (m + 1) = cid + 1 + m := by omega
          rw [e]
          exact hinv'
        · rw [hcfg, placeCopState_cfg]
        · rw [hcount, placeCopState_turtle_coords, agentKeyCount_amSet_cop]

theorem placeAgents_inv (strm : Streams) (agg : Bool) :
    ∀ (n k cid aid : ℕ) (pool : List Coord) (s s' : SimState)
      (pool' : List Coord) (k' : ℕ),
    placeAgents strm agg n k aid pool s = .ok (s', pool', k') →
    PlaceInv cid aid pool s →
    PlaceInv cid (aid + n) pool' s' ∧ cfgOf s' = cfgOf s ∧
      agentKeyCount s'.turtle_coords = agentKeyCount s.turtle_coords + n := by
  intro n
  induction n with
  | zero =>
      intro k cid aid pool s s' pool' k' h hinv
      unfold placeAgents at h
      injection h with h
      injection h with h1 h
      injection h with h2 h3
      subst h1
      subst h2
      exact ⟨hinv, rfl, rfl⟩
  | succ m ih =>
      intro k cid aid pool s s' pool' k' h hinv
      unfold placeAgents at h
      rcases hr : pickPool pool (strm.place_ints k) with e | ⟨rc, pool1⟩ <;>
        rw [hr] at h
      · exact Except.noConfusion h
      · obtain ⟨hrc, hsub, hnd⟩ := pickPool_ok pool _ rc pool1 hr
        obtain ⟨hnotin, hnd1⟩ := hnd hinv.poolND
        have hstep := placeAgent_step_inv strm agg cid aid pool s rc pool1 hinv hrc
          hsub hnotin hnd1
        obtain ⟨hinv', hcfg, hcount⟩ :=
          ih (k + 1) cid (aid + 1) pool1 (placeAgentState strm agg s aid rc) s'
            pool' k' h hstep
        have hfresh : TRef.agent aid ∉ s.turtle_coords.map Prod.fst :=
          hinv.agentFresh aid le_rfl
        refine ⟨?_, ?_, ?_⟩
        · have e : aid + (m + 1) = aid + 1 + m := by omega
          rw [e]
          exact hinv'
        · rw [hcfg, placeAgentState_cfg]
        · rw [hcount, placeAgentState_turtle_coords,
            agentKeyCount_amSet_agent_fresh _ _ _ hfresh]
          omega

/-- The initial placement invariant on the freshly reset state. -/
theorem initState_placeInv (max_pxcor max_pycor : ℕ) (cd ad vi gl mjt me : PyVal) :
    PlaceInv 0 0 (allCoords (max_pycor + 1) (max_pxcor + 1))
      (initState max_pxcor max_pycor cd ad vi gl mjt me) := by
  refine ⟨?_, ?_, ?_, allCoords_nodup _ _, ?_, ?_, ?_, ?_, ?_, ?_, ?_⟩
  · exact List.nodup_nil
  · intro r c hget
    exact Option.noConfusion hget
  · intro t c hget
    exact Option.noConfusion hget
  · intro c hc
    exact (mem_allCoords _ _ c).mp hc
  · intro t c hget
    exact Option.noConfusion hget
  · intro i _ hmem
    exact List.not_mem_nil _ hmem
  · intro i _ hmem
    exact List.not_mem_nil _ hmem
  · exact List.nodup_nil
  · intro i _ hmem
    exact List.not_mem_nil _ hmem
  · intro r
    rfl

/-- Everything `setup` guarantees on success: the structural invariant, the
tick-0 report record, the agent population count, all jail terms zero, a
non-empty grid, and the configuration fields as computed from the inputs. -/
theorem setup_ok_facts (max_pxcor max_pycor : ℕ) (cd ad vi gl mjt me agg : PyVal)
    (strm : Streams) (s₀ : SimState)
    (h : setup max_pxcor max_pycor cd ad vi gl mjt me agg strm = .ok s₀) :
    Inv s₀ ∧
    s₀.report = [⟨0, s₀.num_agents, 0, 0⟩] ∧
    agentKeyCount s₀.turtle_coords = s₀.num_agents ∧
    AllJailZero s₀ ∧
    0 < s₀.num_rows ∧ 0 < s₀.num_cols ∧
    s₀.max_jail_term = mjt.toZ ∧
    s₀.num_agents = agent_count max_pxcor max_pycor ad ∧
    s₀.tick = 0 := by
  unfold setup at h
  rcases hv : validate_parameters cd ad vi gl mjt me with e | u <;> rw [hv] at h
  · exact Except.noConfusion h
  · replace h : setupPlace strm agg.truthy
        (cop_count max_pxcor max_pycor cd) (agent_count max_pxcor max_pycor ad)
        (max_pycor + 1) (max_pxcor + 1)
        (initState max_pxcor max_pycor cd ad vi gl mjt me) = .ok s₀ := h
    unfold setupPlace at h
    rcases hc : placeCops strm (cop_count max_pxcor max_pycor cd) 0 0
        (allCoords (max_pycor + 1) (max_pxcor + 1))
        (initState max_pxcor max_pycor cd ad vi gl mjt me) with e1 | res <;>
      rw [hc] at h
    · exact Except.noConfusion h
    · obtain ⟨s1, pool1, k1⟩ := res
      replace h : setupAgentsPhase strm agg.truthy
          (agent_count max_pxcor max_pycor ad) k1 pool1 s1 = .ok s₀ := h
      unfold setupAgentsPhase at h
      rcases ha : placeAgents strm agg.truthy (agent_count max_pxcor max_pycor ad)
          k1 0 pool1 s1 with e2 | res2 <;> rw [ha] at h
      · exact Except.noConfusion h
      · obtain ⟨s2, pool2, k2⟩ := res2
        replace h : Except.ok (ε := PyErr)
            { s2 with report := [⟨0, agent_count max_pxcor max_pycor ad, 0, 0⟩] } =
            .ok s₀ := h
        injection h with h
        obtain ⟨hinv1, hcfg1, hcount1⟩ := placeCops_inv strm _ 0 0 0 _ _ s1 pool1 k1
          hc (initState_placeInv max_pxcor max_pycor cd ad vi gl mjt me)
        obtain ⟨hinv2, hcfg2, hcount2⟩ := placeAgents_inv strm agg.truthy _ k1
          (0 + cop_count max_pxcor max_pycor cd) 0 pool1 s1 s2 pool2 k2 ha hinv1
        have hcfg : cfgOf s2 = cfgOf (initState max_pxcor max_pycor cd ad vi gl mjt me) := by
          rw [hcfg2, hcfg1]
        have hnumAgents : s2.num_agents = agent_count max_pxcor max_pycor ad := by
          have := congrArg (fun p => p.2.2.2.1) hcfg
          simpa [cfgOf, initState] using this
        have hnumRows : s2.num_rows = max_pycor + 1 := by
          have := congrArg (fun p => p.1) hcfg
          simpa [cfgOf, initState] using this
        have hnumCols : s2.num_cols = max_pxcor + 1 := by
          have := congrArg (fun p => p.2.1) hcfg
          simpa [cfgOf, initState] using this
        have hvision : s2.vision = vi.toQ := by
          have := congrArg (fun p => p.2.2.2.2.1) hcfg
          simpa [cfgOf, initState] using this
        have hmjt : s2.max_jail_term = mjt.toZ := by
          have := congrArg (fun p => p.2.2.2.2.2.2.1) hcfg
          simpa [cfgOf, initState] using this
        have htick : s2.tick = 0 := by
          have := congrArg (fun p => p.2.2.2.2.2.2.2.2.1) hcfg
          simpa [cfgOf, initState] using this
        have hvisNN : 0 ≤ vi.toQ := by
          have hok := (validate_parameters_ok_iff cd ad vi gl mjt me).mp (by
            cases u
            exact hv)
          exact ((validate_value_ok_iff _ _ _ _ _).mp hok.2.2.1).2.1
        have hcount : agentKeyCount s2.turtle_coords =
            agent_count max_pxcor max_pycor ad := by
          rw [hcount2, hcount1]
          show agentKeyCount ((initState max_pxcor max_pycor cd ad vi gl mjt me).turtle_coords) +
            agent_count max_pxcor max_pycor ad = _
          rw [show (initState max_pxcor max_pycor cd ad vi gl mjt me).turtle_coords = [] from rfl]
          simp [agentKeyCount]
        subst h
        refine ⟨⟨?_, hinv2.keysND, hinv2.placed, ?_⟩, ?_, ?_, ?_, ?_, ?_, ?_, ?_, ?_⟩
        · show (0 : ℚ) ≤ s2.vision
          rw [hvision]
          exact hvisNN
        · intro t c hget
          exact hinv2.inGrid t c hget
        · show ([⟨0, agent_count max_pxcor max_pycor ad, 0, 0⟩] : List TickRecord) =
            [⟨0, s2.num_agents, 0, 0⟩]
          rw [hnumAgents]
        · show agentKeyCount s2.turtle_coords = s2.num_agents
          rw [hcount, hnumAgents]
        · exact hinv2.jailZero
        · show 0 < s2.num_rows
          omega
        · show 0 < s2.num_cols
          omega
        · exact hmjt
        · rw [hnumAgents]
        · exact htick


/-! ### Go-phase helper lemmas -/

theorem choose_mem {α : Type} (l : List α) (d : ℕ) (x : α) (h : choose l d = some x) :
    x ∈ l := by
  unfold choose at h
  exact List.get?_mem h

theorem mem_map_fst_of_amGet {κ ν : Type} [DecidableEq κ] (l : List (κ × ν)) (k : κ) (v : ν)
    (h : amGet l k = some v) : k ∈ l.map Prod.fst :=
  List.mem_map_of_mem Prod.fst (mem_of_amGet l k v h)

theorem amGet_some_of_mem_fst {κ ν : Type} [DecidableEq κ] (l : List (κ × ν)) (k : κ)
    (h : k ∈ l.map Prod.fst) : ∃ v, amGet l k = some v := by
  rcases List.mem_map.mp h with ⟨p, hp, hf⟩
  refine amGet_isSome_of_mem l k p.2 ?_
  rw [← hf]
  exact hp

theorem neighboursOf_grid (s : SimState) (c d : Coord) (h : d ∈ neighboursOf s c) :
    d.1 < s.num_rows ∧ d.2 < s.num_cols :=
  ((mem_coord_neighbours _ _ _ _ _).mp h).2.1

theorem self_mem_neighboursOf (s : SimState) (c : Coord) (hv : 0 ≤ s.vision)
    (h1 : c.1 < s.num_rows) (h2 : c.2 < s.num_cols) : c ∈ neighboursOf s c :=
  (mem_coord_neighbours _ _ _ _ _).mpr ⟨⟨h1, h2⟩, ⟨h1, h2⟩, inVision_self _ _ _ _ hv⟩

theorem move_targets_mem (s : SimState) (c dst : Coord) (h : dst ∈ move_targets s c) :
    dst ∈ neighboursOf s c ∧ valid_square s dst = true := by
  unfold move_targets at h
  exact ⟨(List.mem_filter.mp h).1, by simpa using (List.mem_filter.mp h).2⟩

theorem suspects_of_mem (s : SimState) (c : Coord) (sid : ℕ) (nc : Coord)
    (h : (sid, nc) ∈ suspects_of s c) :
    nc ∈ neighboursOf s c ∧ TRef.agent sid ∈ cellOcc s nc ∧
      (getAgent s sid).active = true := by
  unfold suspects_of at h
  rcases List.mem_flatMap.mp h with ⟨d, hd, hx⟩
  rcases List.mem_filterMap.mp hx with ⟨x, hxm, hfx⟩
  match x with
  | TRef.cop i => simp at hfx
  | TRef.agent r =>
      by_cases ha : (getAgent s r).active = true
      · simp only [ha, if_true, Option.some.injEq, Prod.mk.injEq] at hfx
        obtain ⟨h1, h2⟩ := hfx
        subst h1
        subst h2
        exact ⟨hd, hxm, ha⟩
      · simp [ha] at hfx

theorem agent_grievances_pos (s : SimState) (c nc : Coord) (r : ℕ)
    (hn : nc ∈ neighboursOf s c) (hm : TRef.agent r ∈ cellOcc s nc) :
    1 ≤ (agent_grievances s c).length := by
  have hx : ((getAgent s r).perceived_hardship * (1 - s.government_legitimacy)) ∈
      agent_grievances s c := by
    unfold agent_grievances
    refine List.mem_flatMap.mpr ⟨nc, hn, ?_⟩
    exact List.mem_filterMap.mpr ⟨TRef.agent r, hm, rfl⟩
  have := List.length_pos.mpr (List.ne_nil_of_mem hx)
  omega

theorem Inv_transfer (s s' : SimState) (hInv : Inv s)
    (hct : s'.coord_turtles = s.coord_turtles) (htc : s'.turtle_coords = s.turtle_coords)
    (hv : s'.vision = s.vision) (hr : s'.num_rows = s.num_rows)
    (hc : s'.num_cols = s.num_cols) : Inv s' := by
  constructor
  · rw [hv]
    exact hInv.visNN
  · rw [htc]
    exact hInv.keysND
  · intro r c hget
    rw [htc] at hget
    have hmem := hInv.placed r c hget
    unfold cellOcc
    rw [hct]
    exact hmem
  · intro t c hget
    rw [htc] at hget
    rw [hr, hc]
    exact hInv.inGrid t c hget

theorem Inv_setAgent (s : SimState) (r : ℕ) (d : AgentData) (hInv : Inv s) :
    Inv (setAgent s r d) :=
  Inv_transfer s (setAgent s r d) hInv rfl rfl rfl rfl rfl

theorem amGet_move_turtle_self (s : SimState) (t : TRef) (src dst : Coord) :
    amGet (move_turtle s t src dst).turtle_coords t = some dst := by
  rw [move_turtle_turtle_coords]
  exact amGet_amSet_self _ _ _

theorem amGet_move_turtle_ne (s : SimState) (t x : TRef) (src dst : Coord) (h : x ≠ t) :
    amGet (move_turtle s t src dst).turtle_coords x = amGet s.turtle_coords x := by
  rw [move_turtle_turtle_coords]
  exact amGet_amSet_ne _ _ _ _ h

theorem move_turtle_map_fst (s : SimState) (t : TRef) (src dst c0 : Coord)
    (h : amGet s.turtle_coords t = some c0) :
    (move_turtle s t src dst).turtle_coords.map Prod.fst =
      s.turtle_coords.map Prod.fst := by
  rw [move_turtle_turtle_coords]
  exact amSet_map_fst_of_amGet _ _ _ _ h

theorem mem_cellOcc_move_turtle (s : SimState) (t x : TRef) (src dst c : Coord)
    (hx : x ≠ t) (hmem : x ∈ cellOcc s c) :
    x ∈ cellOcc (move_turtle s t src dst) c := by
  by_cases hsd : dst = src
  · by_cases hc : c = src
    · rw [hsd, hc, cellOcc_move_turtle_self]
      refine List.mem_filter.mpr ⟨List.mem_append_left _ ?_, by simpa using hx⟩
      rw [← hc]
      exact hmem
    · rw [cellOcc_move_turtle_other s t src dst c hc (by rw [hsd]; exact hc)]
      exact hmem
  · by_cases hcs : c = src
    · rw [hcs, cellOcc_move_turtle_src s t src dst hsd]
      refine List.mem_filter.mpr ⟨?_, by simpa using hx⟩
      rw [← hcs]
      exact hmem
    · by_cases hcd : c = dst
      · rw [hcd, cellOcc_move_turtle_dst s t src dst hsd]
        refine List.mem_append_left _ ?_
        rw [← hcd]
        exact hmem
      · rw [cellOcc_move_turtle_other s t src dst c hcs hcd]
        exact hmem

theorem self_mem_cellOcc_move_turtle (s : SimState) (t : TRef) (src dst : Coord)
    (h : dst ≠ src) : t ∈ cellOcc (move_turtle s t src dst) dst := by
  rw [cellOcc_move_turtle_dst s t src dst h]
  exact List.mem_append_right _ (List.mem_singleton.mpr rfl)

theorem move_turtle_num_rows (s : SimState) (t : TRef) (src dst : Coord) :
    (move_turtle s t src dst).num_rows = s.num_rows := rfl

theorem move_turtle_num_cols (s : SimState) (t : TRef) (src dst : Coord) :
    (move_turtle s t src dst).num_cols = s.num_cols := rfl

theorem move_turtle_vision (s : SimState) (t : TRef) (src dst : Coord) :
    (move_turtle s t src dst).vision = s.vision := rfl

theorem Inv_move_turtle (s : SimState) (t : TRef) (src dst : Coord)
    (hInv : Inv s) (_hsrc : amGet s.turtle_coords t = some src)
    (hdst : dst.1 < s.num_rows ∧ dst.2 < s.num_cols)
    (hag : ∀ r, t = TRef.agent r → dst ≠ src) :
    Inv (move_turtle s t src dst) := by
  constructor
  · rw [move_turtle_vision]
    exact hInv.visNN
  · rw [move_turtle_turtle_coords]
    exact amSet_keys_nodup _ _ _ hInv.keysND
  · intro r c hget
    by_cases ht : TRef.agent r = t
    · rw [ht] at hget ⊢
      rw [amGet_move_turtle_self] at hget
      injection hget with hc
      subst hc
      exact self_mem_cellOcc_move_turtle s t src dst (hag r ht.symm)
    · rw [amGet_move_turtle_ne s t _ src dst ht] at hget
      exact mem_cellOcc_move_turtle s t _ src dst c ht (hInv.placed r c hget)
  · intro x c hget
    by_cases hx : x = t
    · rw [hx, amGet_move_turtle_self] at hget
      injection hget with hc
      subst hc
      rw [move_turtle_num_rows, move_turtle_num_cols]
      exact hdst
    · rw [amGet_move_turtle_ne s t x src dst hx] at hget
      rw [move_turtle_num_rows, move_turtle_num_cols]
      exact hInv.inGrid x c hget


theorem move_eq (strm : Streams) (ctr : GoCtr) (s : SimState) (t : TRef) (c : Coord) :
    move strm ctr s t c = (s, ctr) ∨
    ∃ dst, choose (move_targets s c) (strm.move_ints ctr.moveK) = some dst ∧
      move strm ctr s t c =
        (move_turtle s t c dst, { ctr with moveK := ctr.moveK + 1 }) := by
  by_cases hg : (s.movement_enabled ||
      (match t with | TRef.cop _ => true | _ => false)) = true
  · rcases hch : choose (move_targets s c) (strm.move_ints ctr.moveK) with _ | dst
    · left
      simp [move, hg, hch]
    · refine Or.inr ⟨dst, rfl, ?_⟩
      simp [move, hg, hch]
  · left
    simp [move, hg]

theorem move_facts (strm : Streams) (ctr : GoCtr) (s : SimState) (t : TRef) (c : Coord)
    (hInv : Inv s) (hc : amGet s.turtle_coords t = some c)
    (hfree : free_actor s t = true) :
    Inv (move strm ctr s t c).1 ∧
    cfgOf (move strm ctr s t c).1 = cfgOf s ∧
    (move strm ctr s t c).1.agents = s.agents ∧
    (move strm ctr s t c).1.turtle_coords.map Prod.fst =
      s.turtle_coords.map Prod.fst ∧
    (∀ x, x ≠ t →
      amGet (move strm ctr s t c).1.turtle_coords x = amGet s.turtle_coords x) := by
  rcases move_eq strm ctr s t c with h | ⟨dst, hch, h⟩
  · rw [h]
    exact ⟨hInv, rfl, rfl, rfl, fun _ _ => rfl⟩
  · rw [h]
    have hdmem := choose_mem _ _ _ hch
    obtain ⟨hnb, hval⟩ := move_targets_mem s c dst hdmem
    have hgrid := neighboursOf_grid s c dst hnb
    have hag : ∀ r, t = TRef.agent r → dst ≠ c := by
      intro r ht heq
      subst ht
      have hjz : (getAgent s r).jail_term = 0 := by
        simpa [free_actor] using hfree
      have hmem : TRef.agent r ∈ cellOcc s c := hInv.placed r c hc
      rw [heq] at hval
      have hall := (List.all_eq_true.mp hval) _ hmem
      simp [hjz] at hall
    refine ⟨Inv_move_turtle s t c dst hInv hc hgrid hag, ?_, ?_, ?_, ?_⟩
    · exact move_turtle_cfg s t c dst
    · exact move_turtle_agents s t c dst
    · exact move_turtle_map_fst s t c dst c hc
    · intro x hx
      exact amGet_move_turtle_ne s t x c dst hx


theorem hardshipShifted_turtle_coords (s : SimState) (r : ℕ) (sh : Bool) :
    (hardshipShifted s r sh).turtle_coords = s.turtle_coords := rfl

theorem hardshipShifted_coord_turtles (s : SimState) (r : ℕ) (sh : Bool) :
    (hardshipShifted s r sh).coord_turtles = s.coord_turtles := rfl

theorem hardshipShifted_cfg (s : SimState) (r : ℕ) (sh : Bool) :
    cfgOf (hardshipShifted s r sh) = cfgOf s := rfl

theorem hardshipShifted_Inv (s : SimState) (r : ℕ) (sh : Bool) (hInv : Inv s) :
    Inv (hardshipShifted s r sh) :=
  Inv_setAgent s r _ hInv

theorem hardshipShifted_jail (s : SimState) (r : ℕ) (sh : Bool) (x : ℕ) :
    (getAgent (hardshipShifted s r sh) x).jail_term = (getAgent s x).jail_term := by
  by_cases hx : x = r
  · subst hx
    unfold hardshipShifted
    rw [getAgent_setAgent_self]
  · unfold hardshipShifted
    rw [getAgent_setAgent_ne _ _ _ _ hx]

theorem behaviourAt_ok (s1 : SimState) (d0 : AgentData) (ag : Bool) (h1 : ℚ) (b : Bool)
    (coord : Coord) (hlen : ag = true → (agent_grievances s1 coord).length ≠ 0) :
    ∃ g, behaviourAt s1 d0 ag h1 b coord =
      .ok (s1, ⟨g, d0.risk_aversion, cops_in_vision s1 coord,
        1 + active_in_vision s1 coord, b⟩) := by
  cases ag with
  | false => exact ⟨h1 * (1 - s1.government_legitimacy), rfl⟩
  | true =>
      refine ⟨(agent_grievances s1 coord).sum /
        ((agent_grievances s1 coord).length : ℚ), ?_⟩
      unfold behaviourAt grievance_of
      rw [if_pos rfl, if_neg (hlen rfl)]

theorem determine_behaviour_ok (s : SimState) (r : ℕ) (sh ag b : Bool) (coord : Coord)
    (hInv : Inv s) (hget : amGet s.turtle_coords (TRef.agent r) = some coord) :
    ∃ q : ActQuery,
      determine_behaviour s r sh ag b = .ok (hardshipShifted s r sh, q) ∧
      q.c = cops_in_vision (hardshipShifted s r sh) coord ∧
      q.a = 1 + active_in_vision (hardshipShifted s r sh) coord ∧
      q.risk_aversion = (getAgent s r).risk_aversion ∧
      q.result = b := by
  have hget2 : amGet (hardshipShifted s r sh).turtle_coords (TRef.agent r) =
      some coord := hget
  have hgrid := hInv.inGrid (TRef.agent r) coord hget
  have hlen : ag = true → (agent_grievances (hardshipShifted s r sh) coord).length ≠ 0 := by
    intro _
    have hself : coord ∈ neighboursOf (hardshipShifted s r sh) coord :=
      self_mem_neighboursOf _ coord hInv.visNN hgrid.1 hgrid.2
    have hmem : TRef.agent r ∈ cellOcc (hardshipShifted s r sh) coord :=
      hInv.placed r coord hget
    have := agent_grievances_pos (hardshipShifted s r sh) coord coord r hself hmem
    omega
  obtain ⟨g, hbeh⟩ := behaviourAt_ok (hardshipShifted s r sh) (getAgent s r) ag
    (shiftHardship sh (getAgent s r).perceived_hardship) b coord hlen
  refine ⟨⟨g, (getAgent s r).risk_aversion, cops_in_vision (hardshipShifted s r sh) coord,
    1 + active_in_vision (hardshipShifted s r sh) coord, b⟩, ?_, rfl, rfl, rfl, rfl⟩
  unfold determine_behaviour
  rw [hget2]
  exact hbeh


theorem ruleA_facts (strm : Streams) (sh ag : Bool) (s : SimState) (ctr : GoCtr) (r : ℕ)
    (hInv : Inv s) (hkey : TRef.agent r ∈ s.turtle_coords.map Prod.fst) :
    ∃ s' ctr', ruleA strm sh ag s ctr r = .ok (s', ctr') ∧
      Inv s' ∧ cfgOf s' = cfgOf s ∧ s'.turtle_coords = s.turtle_coords ∧
      (∀ x, (getAgent s' x).jail_term = (getAgent s x).jail_term) := by
  unfold ruleA
  by_cases hj : (getAgent s r).jail_term = 0
  · rw [if_pos hj]
    obtain ⟨coord, hget⟩ := amGet_some_of_mem_fst _ _ hkey
    obtain ⟨q, heq, _, _, _, _⟩ :=
      determine_behaviour_ok s r sh ag (strm.act_bools ctr.actK) coord hInv hget
    rw [heq]
    refine ⟨_, _, rfl, ?_, ?_, ?_, ?_⟩
    · exact Inv_setAgent _ r _ (hardshipShifted_Inv s r sh hInv)
    · rw [setAgent_cfg, hardshipShifted_cfg]
    · rw [setAgent_turtle_coords, hardshipShifted_turtle_coords]
    · intro x
      by_cases hx : x = r
      · subst hx
        rw [getAgent_setAgent_self]
        exact hardshipShifted_jail s x sh x
      · rw [getAgent_setAgent_ne _ _ _ _ hx]
        exact hardshipShifted_jail s r sh x
  · rw [if_neg hj]
    exact ⟨s, ctr, rfl, hInv, rfl, rfl, fun _ => rfl⟩

theorem arrestState_turtle_coords (s : SimState) (t : TRef) (c : Coord) (sid : ℕ)
    (scoord : Coord) :
    (arrestState s t c sid scoord).turtle_coords = amSet s.turtle_coords t scoord := rfl

theorem arrestState_cfg (s : SimState) (t : TRef) (c : Coord) (sid : ℕ) (scoord : Coord) :
    cfgOf (arrestState s t c sid scoord) = cfgOf s := rfl

theorem arrestState_jail (s : SimState) (t : TRef) (c : Coord) (sid : ℕ) (scoord : Coord)
    (x : ℕ) :
    (getAgent (arrestState s t c sid scoord) x).jail_term =
      (getAgent s x).jail_term := by
  unfold arrestState
  by_cases hx : x = sid
  · subst hx
    rw [getAgent_setAgent_self]
    rfl
  · rw [getAgent_setAgent_ne _ _ _ _ hx]
    rfl

theorem arrestState_Inv (s : SimState) (i sid : ℕ) (c scoord : Coord) (hInv : Inv s)
    (hc : amGet s.turtle_coords (TRef.cop i) = some c)
    (hgrid : scoord.1 < s.num_rows ∧ scoord.2 < s.num_cols) :
    Inv (arrestState s (TRef.cop i) c sid scoord) :=
  Inv_setAgent _ sid _
    (Inv_move_turtle s (TRef.cop i) c scoord hInv hc hgrid (fun _ h => TRef.noConfusion h))

theorem arrest_facts (strm : Streams) (ctr : GoCtr) (s : SimState) (i sid : ℕ)
    (c scoord : Coord) (hInv : Inv s)
    (hc : amGet s.turtle_coords (TRef.cop i) = some c)
    (hgrid : scoord.1 < s.num_rows ∧ scoord.2 < s.num_cols) :
    (∀ s' ctr', arrest strm ctr s (TRef.cop i) c sid scoord = .ok (s', ctr') →
      Inv s' ∧ cfgOf s' = cfgOf s ∧
      s'.turtle_coords.map Prod.fst = s.turtle_coords.map Prod.fst ∧
      (∀ x, x ≠ TRef.cop i → amGet s'.turtle_coords x = amGet s.turtle_coords x) ∧
      (JailNN s → JailNN s') ∧
      (s.max_jail_term = 1 → AllJailZero s → AllJailZero s')) ∧
    (∀ e s'', arrest strm ctr s (TRef.cop i) c sid scoord = .error (e, s'') →
      ∃ msg, e = PyErr.valueError msg) := by
  have hmjt : (arrestState s (TRef.cop i) c sid scoord).max_jail_term =
      s.max_jail_term := rfl
  constructor
  · intro s' ctr' h
    unfold arrest at h
    rcases hr : randrange (arrestState s (TRef.cop i) c sid scoord).max_jail_term
        (strm.jail_ints ctr.jailK) with e | j
    · rw [hr] at h
      exact Except.noConfusion h
    · rw [hr] at h
      injection h with h
      injection h with h1 h2
      subst h1
      refine ⟨?_, ?_, ?_, ?_, ?_, ?_⟩
      · exact Inv_setAgent _ sid _ (arrestState_Inv s i sid c scoord hInv hc hgrid)
      · rw [setAgent_cfg]
        exact arrestState_cfg s (TRef.cop i) c sid scoord
      · rw [setAgent_turtle_coords, arrestState_turtle_coords]
        exact amSet_map_fst_of_amGet _ _ _ _ hc
      · intro x hx
        rw [setAgent_turtle_coords, arrestState_turtle_coords]
        exact amGet_amSet_ne _ _ _ _ hx
      · intro hNN x
        by_cases hx : x = sid
        · subst hx
          rw [getAgent_setAgent_self]
          exact Int.natCast_nonneg j
        · rw [getAgent_setAgent_ne _ _ _ _ hx]
          rw [arrestState_jail]
          exact hNN x
      · intro hm1 hz
        have hrr : randrange (1 : ℤ) (strm.jail_ints ctr.jailK) = .ok j := by
          rw [← hm1, ← hmjt]
          exact hr
        have hj0 : j = 0 := by
          unfold randrange at hrr
          rw [if_neg (by norm_num)] at hrr
          injection hrr with hh
          rw [show (1 : ℤ).toNat = 1 from rfl] at hh
          omega
        intro x
        by_cases hx : x = sid
        · subst hx
          rw [getAgent_setAgent_self]
          show (j : ℤ) = 0
          rw [hj0]
          rfl
        · rw [getAgent_setAgent_ne _ _ _ _ hx, arrestState_jail]
          exact hz x
  · intro e s'' h
    unfold arrest at h
    rcases hr : randrange (arrestState s (TRef.cop i) c sid scoord).max_jail_term
        (strm.jail_ints ctr.jailK) with e0 | j
    · rw [hr] at h
      injection h with h
      have he : e0 = e := congrArg Prod.fst h
      unfold randrange at hr
      by_cases hn : (arrestState s (TRef.cop i) c sid scoord).max_jail_term ≤ 0
      · rw [if_pos hn] at hr
        injection hr with hr2
        exact ⟨"empty range for randrange()", by rw [← he, ← hr2]⟩
      · rw [if_neg hn] at hr
        exact Except.noConfusion hr
    · rw [hr] at h
      exact Except.noConfusion h

theorem enforce_facts (strm : Streams) (ctr : GoCtr) (s : SimState) (i : ℕ) (c : Coord)
    (hInv : Inv s) (hc : amGet s.turtle_coords (TRef.cop i) = some c) :
    (∀ s' ctr', enforce strm ctr s (TRef.cop i) c = .ok (s', ctr') →
      Inv s' ∧ cfgOf s' = cfgOf s ∧
      s'.turtle_coords.map Prod.fst = s.turtle_coords.map Prod.fst ∧
      (∀ x, x ≠ TRef.cop i → amGet s'.turtle_coords x = amGet s.turtle_coords x) ∧
      (JailNN s → JailNN s') ∧
      (s.max_jail_term = 1 → AllJailZero s → AllJailZero s')) ∧
    (∀ e s'', enforce strm ctr s (TRef.cop i) c = .error (e, s'') →
      ∃ msg, e = PyErr.valueError msg) := by
  unfold enforce
  rcases hch : choose (suspects_of s c) (strm.suspect_ints ctr.suspectK)
    with _ | ⟨sid, scoord⟩
  · constructor
    · intro s' ctr' h
      replace h : (Except.ok (s, ctr) :
          Except (PyErr × SimState) (SimState × GoCtr)) = .ok (s', ctr') := h
      injection h with h
      injection h with h1 h2
      subst h1
      exact ⟨hInv, rfl, rfl, fun _ _ => rfl, id, fun _ hz => hz⟩
    · intro e s'' h
      replace h : (Except.ok (s, ctr) :
          Except (PyErr × SimState) (SimState × GoCtr)) = .error (e, s'') := h
      exact Except.noConfusion h
  · have hmem := choose_mem _ _ _ hch
    obtain ⟨hnb, hcell, hact⟩ := suspects_of_mem s c sid scoord hmem
    have hgrid := neighboursOf_grid s c scoord hnb
    exact arrest_facts strm ctr s i sid c scoord hInv hc hgrid

theorem ruleC_facts (strm : Streams) (s : SimState) (ctr : GoCtr) (i : ℕ)
    (hInv : Inv s) (hkey : TRef.cop i ∈ s.turtle_coords.map Prod.fst) :
    (∀ s' ctr', ruleC strm s ctr (TRef.cop i) = .ok (s', ctr') →
      Inv s' ∧ cfgOf s' = cfgOf s ∧
      s'.turtle_coords.map Prod.fst = s.turtle_coords.map Prod.fst ∧
      (∀ x, x ≠ TRef.cop i → amGet s'.turtle_coords x = amGet s.turtle_coords x) ∧
      (JailNN s → JailNN s') ∧
      (s.max_jail_term = 1 → AllJailZero s → AllJailZero s')) ∧
    (∀ e s'', ruleC strm s ctr (TRef.cop i) = .error (e, s'') →
      ∃ msg, e = PyErr.valueError msg) := by
  obtain ⟨cc, hget⟩ := amGet_some_of_mem_fst _ _ hkey
  unfold ruleC
  rw [hget]
  exact enforce_facts strm ctr s i cc hInv hget


theorem movePhase_agent_free (strm : Streams) (s : SimState) (ctr : GoCtr) (r : ℕ)
    (c : Coord) (hj : (getAgent s r).jail_term = 0) :
    movePhase strm (s, ctr) (TRef.agent r, c) = move strm ctr s (TRef.agent r) c := by
  unfold movePhase
  simp [hj]

theorem movePhase_agent_jailed (strm : Streams) (s : SimState) (ctr : GoCtr) (r : ℕ)
    (c : Coord) (hj : ¬ (getAgent s r).jail_term = 0) :
    movePhase strm (s, ctr) (TRef.agent r, c) = (s, ctr) := by
  unfold movePhase
  simp [hj]

theorem movePhase_cop (strm : Streams) (s : SimState) (ctr : GoCtr) (i : ℕ)
    (c : Coord) :
    movePhase strm (s, ctr) (TRef.cop i, c) = move strm ctr s (TRef.cop i) c := by
  unfold movePhase
  simp

theorem process_turtle_facts (strm : Streams) (sh ag : Bool) (s : SimState) (ctr : GoCtr)
    (t : TRef) (c : Coord) (hInv : Inv s) (hc : amGet s.turtle_coords t = some c) :
    (∀ s' ctr', process_turtle strm sh ag (s, ctr) (t, c) = .ok (s', ctr') →
      Inv s' ∧ cfgOf s' = cfgOf s ∧
      s'.turtle_coords.map Prod.fst = s.turtle_coords.map Prod.fst ∧
      (∀ x, x ≠ t → amGet s'.turtle_coords x = amGet s.turtle_coords x) ∧
      (JailNN s → JailNN s') ∧
      (s.max_jail_term = 1 → AllJailZero s → AllJailZero s')) ∧
    (∀ e s'', process_turtle strm sh ag (s, ctr) (t, c) = .error (e, s'') →
      ∃ msg, e = PyErr.valueError msg) := by
  rcases t with r | i
  · by_cases hj : (getAgent s r).jail_term = 0
    · have hpe : process_turtle strm sh ag (s, ctr) (TRef.agent r, c) =
          ruleA strm sh ag (move strm ctr s (TRef.agent r) c).1
            (move strm ctr s (TRef.agent r) c).2 r := by
        show ruleA strm sh ag (movePhase strm (s, ctr) (TRef.agent r, c)).1
          (movePhase strm (s, ctr) (TRef.agent r, c)).2 r = _
        rw [movePhase_agent_free strm s ctr r c hj]
      obtain ⟨hInv1, hcfg1, hagents1, hmap1, hne1⟩ :=
        move_facts strm ctr s (TRef.agent r) c hInv hc (by simp [free_actor, hj])
      have hkey1 : TRef.agent r ∈
          (move strm ctr s (TRef.agent r) c).1.turtle_coords.map Prod.fst := by
        rw [hmap1]
        exact mem_map_fst_of_amGet _ _ _ hc
      obtain ⟨s2, ctr2, hra, hInv2, hcfg2, htc2, hjail2⟩ :=
        ruleA_facts strm sh ag (move strm ctr s (TRef.agent r) c).1
          (move strm ctr s (TRef.agent r) c).2 r hInv1 hkey1
      have hjailAll : ∀ x, (getAgent s2 x).jail_term = (getAgent s x).jail_term := by
        intro x
        rw [hjail2 x]
        unfold getAgent
        rw [hagents1]
      constructor
      · intro s' ctr' h
        rw [hpe, hra] at h
        injection h with h
        injection h with h1 h2
        subst h1
        refine ⟨hInv2, hcfg2.trans hcfg1, ?_, ?_, ?_, ?_⟩
        · rw [htc2]
          exact hmap1
        · intro x hx
          rw [htc2]
          exact hne1 x hx
        · intro hNN x
          rw [hjailAll x]
          exact hNN x
        · intro _ hz x
          rw [hjailAll x]
          exact hz x
      · intro e s'' h
        rw [hpe, hra] at h
        exact Except.noConfusion h
    · have hpe : process_turtle strm sh ag (s, ctr) (TRef.agent r, c) =
          ruleA strm sh ag s ctr r := by
        show ruleA strm sh ag (movePhase strm (s, ctr) (TRef.agent r, c)).1
          (movePhase strm (s, ctr) (TRef.agent r, c)).2 r = _
        rw [movePhase_agent_jailed strm s ctr r c hj]
      have hra : ruleA strm sh ag s ctr r = .ok (s, ctr) := by
        unfold ruleA
        rw [if_neg hj]
      constructor
      · intro s' ctr' h
        rw [hpe, hra] at h
        injection h with h
        injection h with h1 h2
        subst h1
        exact ⟨hInv, rfl, rfl, fun _ _ => rfl, id, fun _ hz => hz⟩
      · intro e s'' h
        rw [hpe, hra] at h
        exact Except.noConfusion h
  · have hpe : process_turtle strm sh ag (s, ctr) (TRef.cop i, c) =
        ruleC strm (move strm ctr s (TRef.cop i) c).1
          (move strm ctr s (TRef.cop i) c).2 (TRef.cop i) := by
      show ruleC strm (movePhase strm (s, ctr) (TRef.cop i, c)).1
        (movePhase strm (s, ctr) (TRef.cop i, c)).2 (TRef.cop i) = _
      rw [movePhase_cop strm s ctr i c]
    obtain ⟨hInv1, hcfg1, hagents1, hmap1, hne1⟩ :=
      move_facts strm ctr s (TRef.cop i) c hInv hc rfl
    have hkey1 : TRef.cop i ∈
        (move strm ctr s (TRef.cop i) c).1.turtle_coords.map Prod.fst := by
      rw [hmap1]
      exact mem_map_fst_of_amGet _ _ _ hc
    obtain ⟨hok, herr⟩ := ruleC_facts strm (move strm ctr s (TRef.cop i) c).1
      (move strm ctr s (TRef.cop i) c).2 i hInv1 hkey1
    have hjmv : ∀ x, getAgent (move strm ctr s (TRef.cop i) c).1 x = getAgent s x := by
      intro x
      unfold getAgent
      rw [hagents1]
    have hmjtp : (move strm ctr s (TRef.cop i) c).1.max_jail_term =
        s.max_jail_term := by
      have hpr := congrArg (fun p => p.2.2.2.2.2.2.1) hcfg1
      simpa [cfgOf] using hpr
    constructor
    · intro s' ctr' h
      rw [hpe] at h
      obtain ⟨hI2, hc2, hm2, hn2, hNN2, hz2⟩ := hok s' ctr' h
      refine ⟨hI2, hc2.trans hcfg1, hm2.trans hmap1, ?_, ?_, ?_⟩
      · intro x hx
        rw [hn2 x hx]
        exact hne1 x hx
      · intro hNN
        refine hNN2 ?_
        intro x
        rw [hjmv x]
        exact hNN x
      · intro hm1 hz
        refine hz2 (by rw [hmjtp, hm1]) ?_
        intro x
        rw [hjmv x]
        exact hz x
    · intro e s'' h
      rw [hpe] at h
      exact herr e s'' h


theorem goFold_facts (strm : Streams) (sh ag : Bool) :
    ∀ (l : List (TRef × Coord)) (s : SimState) (ctr : GoCtr),
      Inv s → (∀ tc ∈ l, amGet s.turtle_coords tc.1 = some tc.2) →
      (l.map Prod.fst).Nodup →
      (∀ s' ctr', goFold strm sh ag l (s, ctr) = .ok (s', ctr') →
        Inv s' ∧ cfgOf s' = cfgOf s ∧
        s'.turtle_coords.map Prod.fst = s.turtle_coords.map Prod.fst ∧
        (JailNN s → JailNN s') ∧
        (s.max_jail_term = 1 → AllJailZero s → AllJailZero s')) ∧
      (∀ e s'', goFold strm sh ag l (s, ctr) = .error (e, s'') →
        ∃ msg, e = PyErr.valueError msg) := by
  intro l
  induction l with
  | nil =>
      intro s ctr hInv _ _
      constructor
      · intro s' ctr' h
        replace h : (Except.ok (s, ctr) :
            Except (PyErr × SimState) (SimState × GoCtr)) = .ok (s', ctr') := h
        injection h with h
        injection h with h1 h2
        subst h1
        exact ⟨hInv, rfl, rfl, id, fun _ hz => hz⟩
      · intro e s'' h
        replace h : (Except.ok (s, ctr) :
            Except (PyErr × SimState) (SimState × GoCtr)) = .error (e, s'') := h
        exact Except.noConfusion h
  | cons tc rest ih =>
      intro s ctr hInv hkeys hnd
      obtain ⟨t, c⟩ := tc
      have hc := hkeys (t, c) (List.mem_cons_self _ _)
      obtain ⟨hok, herr⟩ := process_turtle_facts strm sh ag s ctr t c hInv hc
      have hfold : goFold strm sh ag ((t, c) :: rest) (s, ctr) =
          match process_turtle strm sh ag (s, ctr) (t, c) with
          | .error e => .error e
          | .ok p' => goFold strm sh ag rest p' := rfl
      rcases hp : process_turtle strm sh ag (s, ctr) (t, c) with ⟨e0, sErr⟩ | ⟨s1, ctr1⟩
      · constructor
        · intro s' ctr' h
          rw [hfold, hp] at h
          exact Except.noConfusion h
        · intro e' s'' h
          rw [hfold, hp] at h
          injection h with h
          have he : e0 = e' := congrArg Prod.fst h
          obtain ⟨msg, hmsg⟩ := herr e0 sErr hp
          exact ⟨msg, by rw [← he, hmsg]⟩
      · obtain ⟨hInv1, hcfg1, hmap1, hamne1, hnn1, hzz1⟩ := hok s1 ctr1 hp
        have hkeys1 : ∀ tc2 ∈ rest, amGet s1.turtle_coords tc2.1 = some tc2.2 := by
          intro tc2 hm
          have hne : tc2.1 ≠ t := by
            intro heq
            rw [List.map_cons, List.nodup_cons] at hnd
            have hmm : tc2.1 ∈ rest.map Prod.fst := List.mem_map_of_mem Prod.fst hm
            rw [heq] at hmm
            exact hnd.1 hmm
          rw [hamne1 tc2.1 hne]
          exact hkeys tc2 (List.mem_cons_of_mem _ hm)
        have hnd1 : (rest.map Prod.fst).Nodup := by
          rw [List.map_cons, List.nodup_cons] at hnd
          exact hnd.2
        obtain ⟨ihok, iherr⟩ := ih s1 ctr1 hInv1 hkeys1 hnd1
        have hmjt1 : s1.max_jail_term = s.max_jail_term := by
          have hpr := congrArg (fun p => p.2.2.2.2.2.2.1) hcfg1
          simpa [cfgOf] using hpr
        constructor
        · intro s' ctr' h
          rw [hfold, hp] at h
          obtain ⟨hI, hc2, hm2, hn2, hz2⟩ := ihok s' ctr' h
          refine ⟨hI, hc2.trans hcfg1, hm2.trans hmap1, ?_, ?_⟩
          · intro hNN
            exact hn2 (hnn1 hNN)
          · intro hm1 hz
            exact hz2 (by rw [hmjt1, hm1]) (hzz1 hm1 hz)
        · intro e s'' h
          rw [hfold, hp] at h
          exact iherr e s'' h


theorem dec_agent_turtle_coords (s : SimState) (t : TRef) :
    (dec_agent s t).turtle_coords = s.turtle_coords := by
  cases t <;> rfl

theorem dec_agent_coord_turtles (s : SimState) (t : TRef) :
    (dec_agent s t).coord_turtles = s.coord_turtles := by
  cases t <;> rfl

theorem dec_agent_cfg (s : SimState) (t : TRef) : cfgOf (dec_agent s t) = cfgOf s := by
  cases t <;> rfl

theorem dec_agent_getAgent_self (s : SimState) (r : ℕ) :
    getAgent (dec_agent s (TRef.agent r)) r =
      { getAgent s r with jail_term := max 0 ((getAgent s r).jail_term - 1) } := by
  unfold dec_agent
  exact getAgent_setAgent_self s r _

theorem dec_agent_getAgent_ne (s : SimState) (t : TRef) (x : ℕ)
    (h : t ≠ TRef.agent x) : getAgent (dec_agent s t) x = getAgent s x := by
  cases t with
  | cop i => rfl
  | agent r =>
      unfold dec_agent
      refine getAgent_setAgent_ne s r x _ ?_
      intro hx
      exact h (by rw [hx])

theorem dec_foldl_turtle_coords (l : List (TRef × Coord)) :
    ∀ s : SimState,
      (l.foldl (fun acc p => dec_agent acc p.1) s).turtle_coords = s.turtle_coords := by
  induction l with
  | nil => intro s; rfl
  | cons p rest ih =>
      intro s
      rw [List.foldl_cons, ih, dec_agent_turtle_coords]

theorem dec_foldl_coord_turtles (l : List (TRef × Coord)) :
    ∀ s : SimState,
      (l.foldl (fun acc p => dec_agent acc p.1) s).coord_turtles = s.coord_turtles := by
  induction l with
  | nil => intro s; rfl
  | cons p rest ih =>
      intro s
      rw [List.foldl_cons, ih, dec_agent_coord_turtles]

theorem dec_foldl_cfg (l : List (TRef × Coord)) :
    ∀ s : SimState, cfgOf (l.foldl (fun acc p => dec_agent acc p.1) s) = cfgOf s := by
  induction l with
  | nil => intro s; rfl
  | cons p rest ih =>
      intro s
      rw [List.foldl_cons, ih, dec_agent_cfg]

theorem dec_foldl_getAgent_notmem (l : List (TRef × Coord)) :
    ∀ (s : SimState) (r : ℕ), TRef.agent r ∉ l.map Prod.fst →
      getAgent (l.foldl (fun acc p => dec_agent acc p.1) s) r = getAgent s r := by
  induction l with
  | nil => intro s r _; rfl
  | cons p rest ih =>
      intro s r hnm
      rw [List.map_cons, List.mem_cons] at hnm
      push_neg at hnm
      rw [List.foldl_cons, ih _ r hnm.2,
        dec_agent_getAgent_ne s p.1 r (fun h => hnm.1 h.symm)]

theorem dec_foldl_getAgent_mem (l : List (TRef × Coord)) :
    ∀ (s : SimState) (r : ℕ), (l.map Prod.fst).Nodup →
      TRef.agent r ∈ l.map Prod.fst →
      getAgent (l.foldl (fun acc p => dec_agent acc p.1) s) r =
        { getAgent s r with jail_term := max 0 ((getAgent s r).jail_term - 1) } := by
  induction l with
  | nil =>
      intro s r _ hm
      simp at hm
  | cons p rest ih =>
      intro s r hnd hm
      rw [List.map_cons, List.nodup_cons] at hnd
      rw [List.map_cons, List.mem_cons] at hm
      rw [List.foldl_cons]
      rcases hm with hm | hm
      · have hnm : TRef.agent r ∉ rest.map Prod.fst := by
          rw [hm]
          exact hnd.1
        rw [dec_foldl_getAgent_notmem rest _ r hnm, ← hm, dec_agent_getAgent_self]
      · have hne : p.1 ≠ TRef.agent r := by
          intro h
          rw [h] at hnd
          exact hnd.1 hm
        rw [ih _ r hnd.2 hm, dec_agent_getAgent_ne s p.1 r hne]

theorem decrement_jails_turtle_coords (s : SimState) :
    (decrement_jails s).turtle_coords = s.turtle_coords :=
  dec_foldl_turtle_coords s.turtle_coords s

theorem decrement_jails_cfg (s : SimState) : cfgOf (decrement_jails s) = cfgOf s :=
  dec_foldl_cfg s.turtle_coords s

theorem decrement_jails_Inv (s : SimState) (hInv : Inv s) : Inv (decrement_jails s) := by
  refine Inv_transfer s (decrement_jails s) hInv
    (dec_foldl_coord_turtles s.turtle_coords s)
    (dec_foldl_turtle_coords s.turtle_coords s) ?_ ?_ ?_
  · have hpr := congrArg (fun p => p.2.2.2.2.1) (decrement_jails_cfg s)
    simpa [cfgOf] using hpr
  · have hpr := congrArg (fun p => p.1) (decrement_jails_cfg s)
    simpa [cfgOf] using hpr
  · have hpr := congrArg (fun p => p.2.1) (decrement_jails_cfg s)
    simpa [cfgOf] using hpr

theorem decrement_jails_JailNN (s : SimState) (hnd : (s.turtle_coords.map Prod.fst).Nodup)
    (h : JailNN s) : JailNN (decrement_jails s) := by
  intro r
  by_cases hm : TRef.agent r ∈ s.turtle_coords.map Prod.fst
  · rw [show decrement_jails s = s.turtle_coords.foldl (fun acc p => dec_agent acc p.1) s
      from rfl, dec_foldl_getAgent_mem s.turtle_coords s r hnd hm]
    exact le_max_left 0 _
  · rw [show decrement_jails s = s.turtle_coords.foldl (fun acc p => dec_agent acc p.1) s
      from rfl, dec_foldl_getAgent_notmem s.turtle_coords s r hm]
    exact h r

theorem decrement_jails_AllJailZero (s : SimState)
    (hnd : (s.turtle_coords.map Prod.fst).Nodup)
    (h : AllJailZero s) : AllJailZero (decrement_jails s) := by
  intro r
  by_cases hm : TRef.agent r ∈ s.turtle_coords.map Prod.fst
  · rw [show decrement_jails s = s.turtle_coords.foldl (fun acc p => dec_agent acc p.1) s
      from rfl, dec_foldl_getAgent_mem s.turtle_coords s r hnd hm]
    show max 0 ((getAgent s r).jail_term - 1) = 0
    rw [h r]
    rfl
  · rw [show decrement_jails s = s.turtle_coords.foldl (fun acc p => dec_agent acc p.1) s
      from rfl, dec_foldl_getAgent_notmem s.turtle_coords s r hm]
    exact h r


theorem tallyStep_sum (s : SimState) (rec : TickRecord) (p : TRef × Coord) :
    (tallyStep s rec p).quiet + (tallyStep s rec p).jailed + (tallyStep s rec p).active =
      rec.quiet + rec.jailed + rec.active + (if isAgentRef p.1 then 1 else 0) := by
  rcases p with ⟨t, c⟩
  rcases t with r | i
  · unfold tallyStep isAgentRef
    by_cases h1 : (getAgent s r).jail_term ≠ 0
    · simp [h1]
      omega
    · by_cases h2 : (getAgent s r).active <;> (simp [h1, h2]; omega)
  · simp [tallyStep, isAgentRef]

theorem agentKeyCount_cons (p : TRef × Coord) (rest : List (TRef × Coord)) :
    agentKeyCount (p :: rest) =
      (if isAgentRef p.1 then 1 else 0) + agentKeyCount rest := by
  unfold agentKeyCount
  rw [List.map_cons, List.countP_cons]
  by_cases hb : isAgentRef p.1 <;> simp [hb] <;> omega

theorem tally_foldl_sum (s : SimState) (l : List (TRef × Coord)) :
    ∀ rec : TickRecord,
      (l.foldl (tallyStep s) rec).quiet + (l.foldl (tallyStep s) rec).jailed +
        (l.foldl (tallyStep s) rec).active =
      rec.quiet + rec.jailed + rec.active + agentKeyCount l := by
  induction l with
  | nil =>
      intro rec
      simp [agentKeyCount]
  | cons p rest ih =>
      intro rec
      rw [List.foldl_cons, ih (tallyStep s rec p), agentKeyCount_cons]
      have hstep := tallyStep_sum s rec p
      omega

theorem tally_foldl_jailed (s : SimState) (hz : AllJailZero s) (l : List (TRef × Coord)) :
    ∀ rec : TickRecord, (l.foldl (tallyStep s) rec).jailed = rec.jailed := by
  induction l with
  | nil => intro rec; rfl
  | cons p rest ih =>
      intro rec
      rw [List.foldl_cons, ih]
      rcases p with ⟨t, c⟩
      rcases t with r | i
      · have h1 : (getAgent s r).jail_term = 0 := hz r
        by_cases h2 : (getAgent s r).active <;> simp [tallyStep, h1, h2]
      · rfl

theorem tally_sum (s : SimState) :
    (tally s).quiet + (tally s).jailed + (tally s).active =
      agentKeyCount s.turtle_coords := by
  unfold tally
  rw [tally_foldl_sum s s.turtle_coords ⟨s.tick, 0, 0, 0⟩]
  simp

theorem tally_jailed_zero (s : SimState) (hz : AllJailZero s) : (tally s).jailed = 0 := by
  unfold tally
  rw [tally_foldl_jailed s hz s.turtle_coords ⟨s.tick, 0, 0, 0⟩]


theorem go_ok_facts (strm : Streams) (sh ag : Bool) (s s' : SimState)
    (log : List ActQuery) (hInv : Inv s) (h : go strm sh ag s = .ok (s', log)) :
    Inv s' ∧
    s'.num_agents = s.num_agents ∧
    s'.max_jail_term = s.max_jail_term ∧
    s'.turtle_coords.map Prod.fst = s.turtle_coords.map Prod.fst ∧
    (JailNN s → JailNN s') ∧
    (s.max_jail_term = 1 → AllJailZero s → AllJailZero s') ∧
    ∃ rec : TickRecord, s'.report = s.report ++ [rec] ∧
      rec.quiet + rec.jailed + rec.active = agentKeyCount s.turtle_coords ∧
      (s.max_jail_term = 1 → AllJailZero s → rec.jailed = 0) := by
  have horder_keys : ∀ tc ∈ selectPerm strm.shuffle_ints 0 s.turtle_coords.length
      s.turtle_coords, amGet s.turtle_coords tc.1 = some tc.2 := by
    intro tc hm
    obtain ⟨t, c⟩ := tc
    exact amGet_of_mem_nodup _ _ _ hInv.keysND (selectPerm_mem _ _ _ _ _ hm)
  have horder_nd := selectPerm_map_fst_nodup strm.shuffle_ints s.turtle_coords.length 0
    s.turtle_coords hInv.keysND
  obtain ⟨hok, _⟩ := goFold_facts strm sh ag
    (selectPerm strm.shuffle_ints 0 s.turtle_coords.length s.turtle_coords)
    s ⟨0, 0, 0, 0, []⟩ hInv horder_keys horder_nd
  rcases hf : goFold strm sh ag
      (selectPerm strm.shuffle_ints 0 s.turtle_coords.length s.turtle_coords)
      (s, ⟨0, 0, 0, 0, []⟩) with e | ⟨s1, ctr⟩
  · have hg : go strm sh ag s = .error e := by
      show (match goFold strm sh ag
          (selectPerm strm.shuffle_ints 0 s.turtle_coords.length s.turtle_coords)
          (s, ⟨0, 0, 0, 0, []⟩) with
        | .error e => (.error e : Except (PyErr × SimState) (SimState × List ActQuery))
        | .ok (s1, ctr) =>
            .ok ({ { decrement_jails s1 with tick := (decrement_jails s1).tick + 1 } with
                report := { decrement_jails s1 with
                    tick := (decrement_jails s1).tick + 1 }.report ++
                  [tally { decrement_jails s1 with
                    tick := (decrement_jails s1).tick + 1 }] }, ctr.log)) = .error e
      rw [hf]
    rw [hg] at h
    exact Except.noConfusion h
  · obtain ⟨hInv1, hcfg1, hmap1, hnn1, hzz1⟩ := hok s1 ctr hf
    have hg : go strm sh ag s =
        .ok ({ { decrement_jails s1 with tick := (decrement_jails s1).tick + 1 } with
            report := { decrement_jails s1 with
                tick := (decrement_jails s1).tick + 1 }.report ++
              [tally { decrement_jails s1 with
                tick := (decrement_jails s1).tick + 1 }] }, ctr.log) := by
      show (match goFold strm sh ag
          (selectPerm strm.shuffle_ints 0 s.turtle_coords.length s.turtle_coords)
          (s, ⟨0, 0, 0, 0, []⟩) with
        | .error e => (.error e : Except (PyErr × SimState) (SimState × List ActQuery))
        | .ok (s1, ctr) =>
            .ok ({ { decrement_jails s1 with tick := (decrement_jails s1).tick + 1 } with
                report := { decrement_jails s1 with
                    tick := (decrement_jails s1).tick + 1 }.report ++
                  [tally { decrement_jails s1 with
                    tick := (decrement_jails s1).tick + 1 }] }, ctr.log)) = _
      rw [hf]
    rw [hg] at h
    injection h with h
    injection h with h1 h2
    have hmjt1 : s1.max_jail_term = s.max_jail_term := by
      have hpr := congrArg (fun p => p.2.2.2.2.2.2.1) hcfg1
      simpa [cfgOf] using hpr
    have hna1 : s1.num_agents = s.num_agents := by
      have hpr := congrArg (fun p => p.2.2.2.1) hcfg1
      simpa [cfgOf] using hpr
    have hrep1 : s1.report = s.report := by
      have hpr := congrArg (fun p => p.2.2.2.2.2.2.2.2.2) hcfg1
      simpa [cfgOf] using hpr
    have hInvd : Inv (decrement_jails s1) := decrement_jails_Inv s1 hInv1
    have hrepd : (decrement_jails s1).report = s1.report := by
      have hpr := congrArg (fun p => p.2.2.2.2.2.2.2.2.2) (decrement_jails_cfg s1)
      simpa [cfgOf] using hpr
    have hnad : (decrement_jails s1).num_agents = s1.num_agents := by
      have hpr := congrArg (fun p => p.2.2.2.1) (decrement_jails_cfg s1)
      simpa [cfgOf] using hpr
    have hmjtd : (decrement_jails s1).max_jail_term = s1.max_jail_term := by
      have hpr := congrArg (fun p => p.2.2.2.2.2.2.1) (decrement_jails_cfg s1)
      simpa [cfgOf] using hpr
    subst h1
    refine ⟨?_, ?_, ?_, ?_, ?_, ?_, ?_⟩
    · refine Inv_transfer (decrement_jails s1) _ hInvd rfl rfl rfl rfl rfl
    · show (decrement_jails s1).num_agents = s.num_agents
      rw [hnad, hna1]
    · show (decrement_jails s1).max_jail_term = s.max_jail_term
      rw [hmjtd, hmjt1]
    · show (decrement_jails s1).turtle_coords.map Prod.fst = _
      rw [decrement_jails_turtle_coords]
      exact hmap1
    · intro hNN
      intro r
      show (getAgent (decrement_jails s1) r).jail_term ≥ 0
      exact decrement_jails_JailNN s1 hInv1.keysND (hnn1 hNN) r
    · intro hm1 hz
      intro r
      show (getAgent (decrement_jails s1) r).jail_term = 0
      exact decrement_jails_AllJailZero s1 hInv1.keysND (hzz1 hm1 hz) r
    · refine ⟨tally { decrement_jails s1 with tick := (decrement_jails s1).tick + 1 },
        ?_, ?_, ?_⟩
      · show (decrement_jails s1).report ++ _ = s.report ++ _
        rw [hrepd, hrep1]
      · rw [tally_sum]
        show agentKeyCount (decrement_jails s1).turtle_coords = _
        rw [decrement_jails_turtle_coords]
        unfold agentKeyCount
        rw [hmap1]
      · intro hm1 hz
        refine tally_jailed_zero _ ?_
        intro r
        show (getAgent (decrement_jails s1) r).jail_term = 0
        exact decrement_jails_AllJailZero s1 hInv1.keysND (hzz1 hm1 hz) r


theorem go_err_facts (strm : Streams) (sh ag : Bool) (s : SimState) (e : PyErr)
    (s'' : SimState) (hInv : Inv s) (h : go strm sh ag s = .error (e, s'')) :
    ∃ msg, e = PyErr.valueError msg := by
  have horder_keys : ∀ tc ∈ selectPerm strm.shuffle_ints 0 s.turtle_coords.length
      s.turtle_coords, amGet s.turtle_coords tc.1 = some tc.2 := by
    intro tc hm
    obtain ⟨t, c⟩ := tc
    exact amGet_of_mem_nodup _ _ _ hInv.keysND (selectPerm_mem _ _ _ _ _ hm)
  have horder_nd := selectPerm_map_fst_nodup strm.shuffle_ints s.turtle_coords.length 0
    s.turtle_coords hInv.keysND
  obtain ⟨_, herr⟩ := goFold_facts strm sh ag
    (selectPerm strm.shuffle_ints 0 s.turtle_coords.length s.turtle_coords)
    s ⟨0, 0, 0, 0, []⟩ hInv horder_keys horder_nd
  rcases hf : goFold strm sh ag
      (selectPerm strm.shuffle_ints 0 s.turtle_coords.length s.turtle_coords)
      (s, ⟨0, 0, 0, 0, []⟩) with ⟨e1, sE⟩ | ⟨s1, ctr⟩
  · have hg : go strm sh ag s = .error (e1, sE) := by
      show (match goFold strm sh ag
          (selectPerm strm.shuffle_ints 0 s.turtle_coords.length s.turtle_coords)
          (s, ⟨0, 0, 0, 0, []⟩) with
        | .error e => (.error e : Except (PyErr × SimState) (SimState × List ActQuery))
        | .ok (s1, ctr) =>
            .ok ({ { decrement_jails s1 with tick := (decrement_jails s1).tick + 1 } with
                report := { decrement_jails s1 with
                    tick := (decrement_jails s1).tick + 1 }.report ++
                  [tally { decrement_jails s1 with
                    tick := (decrement_jails s1).tick + 1 }] }, ctr.log)) = _
      rw [hf]
    rw [hg] at h
    injection h with h
    injection h with h1 h2
    obtain ⟨msg, hmsg⟩ := herr e1 sE hf
    exact ⟨msg, by rw [← h1, hmsg]⟩
  · have hg : go strm sh ag s =
        .ok ({ { decrement_jails s1 with tick := (decrement_jails s1).tick + 1 } with
            report := { decrement_jails s1 with
                tick := (decrement_jails s1).tick + 1 }.report ++
              [tally { decrement_jails s1 with
                tick := (decrement_jails s1).tick + 1 }] }, ctr.log) := by
      show (match goFold strm sh ag
          (selectPerm strm.shuffle_ints 0 s.turtle_coords.length s.turtle_coords)
          (s, ⟨0, 0, 0, 0, []⟩) with
        | .error e => (.error e : Except (PyErr × SimState) (SimState × List ActQuery))
        | .ok (s1, ctr) =>
            .ok ({ { decrement_jails s1 with tick := (decrement_jails s1).tick + 1 } with
                report := { decrement_jails s1 with
                    tick := (decrement_jails s1).tick + 1 }.report ++
                  [tally { decrement_jails s1 with
                    tick := (decrement_jails s1).tick + 1 }] }, ctr.log)) = _
      rw [hf]
    rw [hg] at h
    exact Except.noConfusion h

theorem goChain_facts (s₀ s : SimState) (hch : GoChain s₀ s) (hInv : Inv s₀) :
    Inv s ∧
    s.num_agents = s₀.num_agents ∧
    s.max_jail_term = s₀.max_jail_term ∧
    s.turtle_coords.map Prod.fst = s₀.turtle_coords.map Prod.fst ∧
    (JailNN s₀ → JailNN s) ∧
    (s₀.max_jail_term = 1 → AllJailZero s₀ → AllJailZero s) ∧
    List.IsPrefix s₀.report s.report ∧
    (∀ rec ∈ s.report, rec ∈ s₀.report ∨
      (rec.quiet + rec.jailed + rec.active = agentKeyCount s₀.turtle_coords ∧
        (s₀.max_jail_term = 1 → AllJailZero s₀ → rec.jailed = 0))) := by
  induction hch with
  | refl =>
      exact ⟨hInv, rfl, rfl, rfl, id, fun _ h => h, List.prefix_refl _,
        fun rec hm => Or.inl hm⟩
  | step hchain hstep ih =>
      obtain ⟨hInvT, hnaT, hmjtT, hmapT, hNNT, hAZT, hpreT, hrecT⟩ := ih
      obtain ⟨strm, sh, ag, log, hgo, _⟩ := hstep
      obtain ⟨hInvU, hnaU, hmjtU, hmapU, hNNU, hAZU, rec, hrepU, hsum, hjz⟩ :=
        go_ok_facts strm sh ag _ _ log hInvT hgo
      refine ⟨hInvU, hnaU.trans hnaT, hmjtU.trans hmjtT, hmapU.trans hmapT,
        ?_, ?_, ?_, ?_⟩
      · intro h0
        exact hNNU (hNNT h0)
      · intro h1 h0
        exact hAZU (by rw [hmjtT, h1]) (hAZT h1 h0)
      · rw [hrepU]
        exact hpreT.trans (List.prefix_append _ _)
      · intro r hm
        rw [hrepU] at hm
        rcases List.mem_append.mp hm with hm2 | hm2
        · exact hrecT r hm2
        · have hr : r = rec := by simpa using hm2
          subst hr
          refine Or.inr ⟨?_, ?_⟩
          · rw [hsum]
            unfold agentKeyCount
            rw [hmapT]
          · intro h1 h0
            exact hjz (by rw [hmjtT, h1]) (hAZT h1 h0)

theorem reachable_facts (s : SimState) (h : Reachable s) :
    Inv s ∧ JailNN s ∧
    s.report.head? = some ⟨0, s.num_agents, 0, 0⟩ ∧
    (∀ rec ∈ s.report, rec.quiet + rec.jailed + rec.active = s.num_agents) := by
  obtain ⟨mx, my, cd, ad, vi, gl, mjt, me, agg, strm, s₀, hU1, hU2, hsetup, hchain⟩ := h
  obtain ⟨hInv0, hrep0, hcount0, hjz0, _, _, _, _, _⟩ :=
    setup_ok_facts mx my cd ad vi gl mjt me agg strm s₀ hsetup
  obtain ⟨hInv, hna, hmjt, hmap, hNN, _, hpre, hrec⟩ := goChain_facts s₀ s hchain hInv0
  have hJNN : JailNN s := hNN (fun r => by rw [hjz0 r])
  refine ⟨hInv, hJNN, ?_, ?_⟩
  · obtain ⟨tl, htl⟩ := hpre
    rw [← htl, hrep0, List.singleton_append, List.head?_cons, hna]
  · intro rec hm
    rcases hrec rec hm with hm0 | ⟨hsum, _⟩
    · rw [hrep0] at hm0
      have hr : rec = ⟨0, s₀.num_agents, 0, 0⟩ := by simpa using hm0
      subst hr
      show s₀.num_agents + 0 + 0 = s.num_agents
      rw [hna]
      omega
    · rw [hsum, hcount0, hna]


/-! ### Reachability of the demonstration states -/

theorem reach_ce_s0 : Reachable ce_s0 := by
  refine ⟨1, 0, .float 50, .int 50, .float 7, .float 0, .int 1, .bool false, .bool false,
    ceStrm, ce_s0, ?_, ?_, ?_, GoChain.refl ce_s0⟩
  · intro k
    refine ⟨?_, ?_⟩
    · show (0 : ℚ) ≤ 9/10
      norm_num
    · show (9/10 : ℚ) < 1
      norm_num
  · intro k
    refine ⟨?_, ?_⟩
    · show (0 : ℚ) ≤ 0
      norm_num
    · show (0 : ℚ) < 1
      norm_num
  · with_unfolding_all rfl

theorem ce_setup_eq : setup 1 0 (.float 50) (.int 50) (.float 7) (.float 0) (.int 1)
    (.bool false) (.bool false) ceStrm = .ok ce_s0 := by
  with_unfolding_all rfl

/-! ### Claim C1: every report record partitions the agent population -/

/-- **C1.** For every reachable state, every record in the run report
satisfies `quiet + jailed + active = total agent count`: the tick-0 seed
record has `quiet` equal to the number of agents created and
`jailed = active = 0`, and each record appended by `go` partitions the agent
population into exactly one of jailed, active, or quiet. -/
theorem claim_C1 (s : SimState) (h : Reachable s) :
    s.report.head? = some ⟨0, s.num_agents, 0, 0⟩ ∧
    ∀ rec ∈ s.report, rec.quiet + rec.jailed + rec.active = s.num_agents := by
  obtain ⟨_, _, hhead, hsum⟩ := reachable_facts s h
  exact ⟨hhead, hsum⟩

theorem claim_C1_witness :
    Reachable ce_s0 ∧
    (ce_s0.report.head? = some ⟨0, ce_s0.num_agents, 0, 0⟩ ∧
      ∀ rec ∈ ce_s0.report, rec.quiet + rec.jailed + rec.active = ce_s0.num_agents) :=
  ⟨reach_ce_s0, claim_C1 ce_s0 reach_ce_s0⟩

/-! ### Claim C3: jail terms stay non-negative and decrement with a floor -/

/-- **C3.** For every reachable state every agent's `jail_term` is a
non-negative integer, and at the end of every `go` call every agent's
`jail_term` equals `max 0 (v - 1)` where `v` is its value in the mid-tick
state right before the end-of-tick decrement — including a value freshly
drawn for an agent arrested earlier in the same tick. -/
theorem claim_C3 (s : SimState) (h : Reachable s) :
    (∀ r, 0 ≤ (getAgent s r).jail_term) ∧
    (∀ (strm : Streams) (sh ag : Bool) (s' : SimState) (log : List ActQuery),
      go strm sh ag s = .ok (s', log) →
      ∃ mid : SimState × GoCtr,
        goFold strm sh ag
          (selectPerm strm.shuffle_ints 0 s.turtle_coords.length s.turtle_coords)
          (s, ⟨0, 0, 0, 0, []⟩) = .ok mid ∧
        ∀ r, TRef.agent r ∈ s.turtle_coords.map Prod.fst →
          (getAgent s' r).jail_term = max 0 ((getAgent mid.1 r).jail_term - 1)) := by
  obtain ⟨hInv, hNN, _, _⟩ := reachable_facts s h
  refine ⟨hNN, ?_⟩
  intro strm sh ag s' log hgo
  have horder_keys : ∀ tc ∈ selectPerm strm.shuffle_ints 0 s.turtle_coords.length
      s.turtle_coords, amGet s.turtle_coords tc.1 = some tc.2 := by
    intro tc hm
    obtain ⟨t, c⟩ := tc
    exact amGet_of_mem_nodup _ _ _ hInv.keysND (selectPerm_mem _ _ _ _ _ hm)
  have horder_nd := selectPerm_map_fst_nodup strm.shuffle_ints s.turtle_coords.length 0
    s.turtle_coords hInv.keysND
  obtain ⟨hok, _⟩ := goFold_facts strm sh ag
    (selectPerm strm.shuffle_ints 0 s.turtle_coords.length s.turtle_coords)
    s ⟨0, 0, 0, 0, []⟩ hInv horder_keys horder_nd
  rcases hf : goFold strm sh ag
      (selectPerm strm.shuffle_ints 0 s.turtle_coords.length s.turtle_coords)
      (s, ⟨0, 0, 0, 0, []⟩) with ⟨e1, sE⟩ | ⟨s1, ctr⟩
  · have hg : go strm sh ag s = .error (e1, sE) := by
      show (match goFold strm sh ag
          (selectPerm strm.shuffle_ints 0 s.turtle_coords.length s.turtle_coords)
          (s, ⟨0, 0, 0, 0, []⟩) with
        | .error e => (.error e : Except (PyErr × SimState) (SimState × List ActQuery))
        | .ok (s1, ctr) =>
            .ok ({ { decrement_jails s1 with tick := (decrement_jails s1).tick + 1 } with
                report := { decrement_jails s1 with
                    tick := (decrement_jails s1).tick + 1 }.report ++
                  [tally { decrement_jails s1 with
                    tick := (decrement_jails s1).tick + 1 }] }, ctr.log)) = _
      rw [hf]
    rw [hg] at hgo
    exact Except.noConfusion hgo
  · obtain ⟨hInv1, _, hmap1, _, _⟩ := hok s1 ctr hf
    have hg : go strm sh ag s =
        .ok ({ { decrement_jails s1 with tick := (decrement_jails s1).tick + 1 } with
            report := { decrement_jails s1 with
                tick := (decrement_jails s1).tick + 1 }.report ++
              [tally { decrement_jails s1 with
                tick := (decrement_jails s1).tick + 1 }] }, ctr.log) := by
      show (match goFold strm sh ag
          (selectPerm strm.shuffle_ints 0 s.turtle_coords.length s.turtle_coords)
          (s, ⟨0, 0, 0, 0, []⟩) with
        | .error e => (.error e : Except (PyErr × SimState) (SimState × List ActQuery))
        | .ok (s1, ctr) =>
            .ok ({ { decrement_jails s1 with tick := (decrement_jails s1).tick + 1 } with
                report := { decrement_jails s1 with
                    tick := (decrement_jails s1).tick + 1 }.report ++
                  [tally { decrement_jails s1 with
                    tick := (decrement_jails s1).tick + 1 }] }, ctr.log)) = _
      rw [hf]
    rw [hg] at hgo
    injection hgo with hgo
    injection hgo with h1 h2
    refine ⟨(s1, ctr), rfl, ?_⟩
    intro r hkey
    rw [← h1]
    show (getAgent (decrement_jails s1) r).jail_term = _
    have hkey1 : TRef.agent r ∈ s1.turtle_coords.map Prod.fst := by
      rw [hmap1]
      exact hkey
    rw [show decrement_jails s1 =
      s1.turtle_coords.foldl (fun acc p => dec_agent acc p.1) s1 from rfl,
      dec_foldl_getAgent_mem s1.turtle_coords s1 r hInv1.keysND hkey1]

theorem claim_C3_witness :
    Reachable ce_s0 ∧
    ((∀ r, 0 ≤ (getAgent ce_s0 r).jail_term) ∧
      (∀ (strm : Streams) (sh ag : Bool) (s' : SimState) (log : List ActQuery),
        go strm sh ag ce_s0 = .ok (s', log) →
        ∃ mid : SimState × GoCtr,
          goFold strm sh ag
            (selectPerm strm.shuffle_ints 0 ce_s0.turtle_coords.length
              ce_s0.turtle_coords) (ce_s0, ⟨0, 0, 0, 0, []⟩) = .ok mid ∧
          ∀ r, TRef.agent r ∈ ce_s0.turtle_coords.map Prod.fst →
            (getAgent s' r).jail_term = max 0 ((getAgent mid.1 r).jail_term - 1))) :=
  ⟨reach_ce_s0, claim_C3 ce_s0 reach_ce_s0⟩

/-! ### Claim C6: the aggregate-grievance divisor is never zero -/

/-- **C6.** In every reachable state the aggregate-grievance sample list over
any placed agent's neighbour set has length at least `1`, because the
neighbour set contains the agent's own cell and the agent occupies it; hence
no `go` call from a reachable state ever raises `ZeroDivisionError` (the only
uncaught error a `go` call can raise is a `ValueError`). -/
theorem claim_C6 (s : SimState) (h : Reachable s) :
    (∀ r coord, amGet s.turtle_coords (TRef.agent r) = some coord →
      1 ≤ (agent_grievances s coord).length) ∧
    (∀ (strm : Streams) (sh ag : Bool) (e : PyErr) (s'' : SimState),
      go strm sh ag s = .error (e, s'') → e ≠ PyErr.zeroDivisionError) := by
  obtain ⟨hInv, _, _, _⟩ := reachable_facts s h
  constructor
  · intro r coord hget
    have hgrid := hInv.inGrid (TRef.agent r) coord hget
    exact agent_grievances_pos s coord coord r
      (self_mem_neighboursOf s coord hInv.visNN hgrid.1 hgrid.2)
      (hInv.placed r coord hget)
  · intro strm sh ag e s'' hgo
    obtain ⟨msg, hmsg⟩ := go_err_facts strm sh ag s e s'' hInv hgo
    rw [hmsg]
    exact fun hcontra => PyErr.noConfusion hcontra

theorem claim_C6_witness :
    Reachable ce_s0 ∧
    ((∀ r coord, amGet ce_s0.turtle_coords (TRef.agent r) = some coord →
        1 ≤ (agent_grievances ce_s0 coord).length) ∧
      (∀ (strm : Streams) (sh ag : Bool) (e : PyErr) (s'' : SimState),
        go strm sh ag ce_s0 = .error (e, s'') → e ≠ PyErr.zeroDivisionError)) :=
  ⟨reach_ce_s0, claim_C6 ce_s0 reach_ce_s0⟩

/-! ### Claim C9: `max_jail_term = 1` means sentences are always zero -/

/-- **C9.** With `max_jail_term = 1` every sentence draw is
`randrange(1) = 0` (the half-open range `[0, 1)`), so in every state
reachable from a setup with `max_jail_term = 1` no report record ever counts
a jailed agent. -/
theorem claim_C9 (mx my : ℕ) (cd ad vi gl me agg : PyVal) (s : SimState)
    (h : ReachableFrom mx my cd ad vi gl (.int 1) me agg s) :
    (∀ draw : ℕ, randrange ((PyVal.int 1).toZ) draw = .ok 0) ∧
    ∀ rec ∈ s.report, rec.jailed = 0 := by
  constructor
  · intro draw
    unfold randrange
    rw [if_neg (by norm_num [PyVal.toZ])]
    rw [show ((PyVal.int 1).toZ).toNat = 1 from rfl, Nat.mod_one]
  · obtain ⟨strm, s₀, hU1, hU2, hsetup, hchain⟩ := h
    obtain ⟨hInv0, hrep0, _, hjz0, _, _, hmjt0, _, _⟩ :=
      setup_ok_facts mx my cd ad vi gl (.int 1) me agg strm s₀ hsetup
    obtain ⟨_, _, _, _, _, _, _, hrec⟩ := goChain_facts s₀ s hchain hInv0
    intro rec hm
    rcases hrec rec hm with hm0 | ⟨_, hjz⟩
    · rw [hrep0] at hm0
      have hr : rec = ⟨0, s₀.num_agents, 0, 0⟩ := by simpa using hm0
      subst hr
      rfl
    · exact hjz (by rw [hmjt0]; rfl) hjz0

theorem claim_C9_witness :
    ReachableFrom 1 0 (.float 50) (.int 50) (.float 7) (.float 0) (.int 1)
      (.bool false) (.bool false) ce_s0 ∧
    ((∀ draw : ℕ, randrange ((PyVal.int 1).toZ) draw = .ok 0) ∧
      ∀ rec ∈ ce_s0.report, rec.jailed = 0) := by
  have hreach : ReachableFrom 1 0 (.float 50) (.int 50) (.float 7) (.float 0) (.int 1)
      (.bool false) (.bool false) ce_s0 := by
    refine ⟨ceStrm, ce_s0, ?_, ?_, ce_setup_eq, GoChain.refl ce_s0⟩
    · intro k
      refine ⟨?_, ?_⟩
      · show (0 : ℚ) ≤ 9/10
        norm_num
      · show (9/10 : ℚ) < 1
        norm_num
    · intro k
      refine ⟨?_, ?_⟩
      · show (0 : ℚ) ≤ 0
        norm_num
      · show (0 : ℚ) < 1
        norm_num
  exact ⟨hreach, claim_C9 1 0 (.float 50) (.int 50) (.float 7) (.float 0)
    (.bool false) (.bool false) ce_s0 hreach⟩


/-! ### Claim C5: the Rule-A decision formula -/

/-- **C5.** For every Rule-A evaluation, the decision inputs count the cops
and `1 +` the active agents among the occupants of the deciding agent's
current neighbour set, the agent becomes active iff
`grievance - risk_aversion * (1 - exp(-2.3 * floor(c / a))) > 0.1` over the
reals, and the Rule-A step writes exactly that decision into the agent's
`active` flag while appending the decision to the log. -/
theorem claim_C5 (s : SimState) (r : ℕ) (sh ag b : Bool) (s2 : SimState) (q : ActQuery)
    (hInv : Inv s) (hdb : determine_behaviour s r sh ag b = .ok (s2, q))
    (hq : ActQueryValid q) :
    (∃ coord, amGet s.turtle_coords (TRef.agent r) = some coord ∧
      q.c = cops_in_vision s2 coord ∧
      q.a = 1 + active_in_vision s2 coord ∧
      q.risk_aversion = (getAgent s r).risk_aversion ∧
      q.result = b) ∧
    (q.result = true ↔
      (q.grievance : ℝ) - (q.risk_aversion : ℝ) *
        (1 - Real.exp (-(23/10 : ℝ) * (⌊(q.c : ℝ) / (q.a : ℝ)⌋₊ : ℝ))) >
        (1/10 : ℝ)) ∧
    (∀ (strm : Streams) (ctr : GoCtr), (getAgent s r).jail_term = 0 →
      strm.act_bools ctr.actK = b →
      ∃ s3 ctr3, ruleA strm sh ag s ctr r = .ok (s3, ctr3) ∧
        (getAgent s3 r).active = q.result ∧ ctr3.log = ctr.log ++ [q]) := by
  rcases hget : amGet s.turtle_coords (TRef.agent r) with _ | coord
  · have hdb0 : determine_behaviour s r sh ag b = .error PyErr.keyError := by
      unfold determine_behaviour
      rw [show amGet (hardshipShifted s r sh).turtle_coords (TRef.agent r) = none
        from hget]
    rw [hdb0] at hdb
    exact Except.noConfusion hdb
  · obtain ⟨q2, hdb2, hc, ha, hra, hres⟩ :=
      determine_behaviour_ok s r sh ag b coord hInv hget
    rw [hdb2] at hdb
    injection hdb with hdb
    injection hdb with h1 h2
    subst h2
    refine ⟨⟨coord, rfl, ?_, ?_, hra, hres⟩, ?_, ?_⟩
    · rw [← h1]
      exact hc
    · rw [← h1]
      exact ha
    · unfold ActQueryValid at hq
      rw [hq]
      have hK : ((K : ℚ) : ℝ) = 23/10 := by
        norm_num [K]
      have hT : ((THRESHOLD : ℚ) : ℝ) = 1/10 := by
        norm_num [THRESHOLD]
      have hfl : ((q2.c / q2.a : ℕ) : ℝ) = (⌊(q2.c : ℝ) / (q2.a : ℝ)⌋₊ : ℝ) := by
        rw [Nat.floor_div_nat, Nat.floor_natCast]
      rw [hK, hT, hfl]
    · intro strm ctr hjz hact
      unfold ruleA
      rw [if_pos hjz, hact, hdb2]
      refine ⟨_, _, rfl, ?_, rfl⟩
      rw [getAgent_setAgent_self]


theorem claim_C5_witness :
    ActQueryValid ⟨9/10, 0, 1, 1, true⟩ ∧
    ((∃ coord, amGet ce_s0.turtle_coords (TRef.agent 0) = some coord ∧
        (1 : ℕ) = cops_in_vision (hardshipShifted ce_s0 0 false) coord ∧
        (1 : ℕ) = 1 + active_in_vision (hardshipShifted ce_s0 0 false) coord ∧
        (0 : ℚ) = (getAgent ce_s0 0).risk_aversion ∧
        true = true) ∧
      (true = true ↔
        ((9/10 : ℚ) : ℝ) - ((0 : ℚ) : ℝ) *
          (1 - Real.exp (-(23/10 : ℝ) * (⌊((1 : ℕ) : ℝ) / ((1 : ℕ) : ℝ)⌋₊ : ℝ))) >
          (1/10 : ℝ)) ∧
      (∀ (strm : Streams) (ctr : GoCtr), (getAgent ce_s0 0).jail_term = 0 →
        strm.act_bools ctr.actK = true →
        ∃ s3 ctr3, ruleA strm false false ce_s0 ctr 0 = .ok (s3, ctr3) ∧
          (getAgent s3 0).active = true ∧
          ctr3.log = ctr.log ++ [⟨9/10, 0, 1, 1, true⟩])) := by
  have hval : ActQueryValid ⟨9/10, 0, 1, 1, true⟩ := by
    unfold ActQueryValid
    constructor
    · intro _
      show ((9/10 : ℚ) : ℝ) - ((0 : ℚ) : ℝ) * _ > ((THRESHOLD : ℚ) : ℝ)
      norm_num [THRESHOLD]
    · intro _
      rfl
  have hInv0 : Inv ce_s0 :=
    (setup_ok_facts 1 0 (.float 50) (.int 50) (.float 7) (.float 0) (.int 1)
      (.bool false) (.bool false) ceStrm ce_s0 ce_setup_eq).1
  exact ⟨hval, claim_C5 ce_s0 0 false false true (hardshipShifted ce_s0 0 false)
    ⟨9/10, 0, 1, 1, true⟩ hInv0 (by with_unfolding_all rfl) hval⟩


/-! ### Claim C2: movement collisions -/

theorem ceQueryValid : ActQueryValid ⟨9/10, 0, 1, 1, true⟩ := by
  unfold ActQueryValid
  constructor
  · intro _
    show ((9/10 : ℚ) : ℝ) - ((0 : ℚ) : ℝ) * _ > ((THRESHOLD : ℚ) : ℝ)
    norm_num [THRESHOLD]
  · intro _
    rfl

theorem reach_ce_s1 : Reachable ce_s1 := by
  refine ⟨1, 0, .float 50, .int 50, .float 7, .float 0, .int 1, .bool false, .bool false,
    ceStrm, ce_s0, ?_, ?_, ce_setup_eq, ?_⟩
  · intro k
    refine ⟨?_, ?_⟩
    · show (0 : ℚ) ≤ 9/10
      norm_num
    · show (9/10 : ℚ) < 1
      norm_num
  · intro k
    refine ⟨?_, ?_⟩
    · show (0 : ℚ) ≤ 0
      norm_num
    · show (0 : ℚ) < 1
      norm_num
  · refine GoChain.step (GoChain.refl ce_s0) ?_
    refine ⟨ceStrm, false, false, ce_log, ?_, ?_⟩
    · with_unfolding_all rfl
    · intro q hq
      rw [show ce_log = [⟨9/10, 0, 1, 1, true⟩] from by with_unfolding_all rfl] at hq
      have hq2 : q = ⟨9/10, 0, 1, 1, true⟩ := by simpa using hq
      rw [hq2]
      exact ceQueryValid

/-- **C2** (amended). An ordinary Rule-M relocation only ever targets a cell
whose prior occupants are exclusively jailed agents, so ordinary movement
never places a free actor in a cell already holding another free actor.  The
original between-ticks no-collision claim is refuted by
`claim_C2_counterexample`: an arrest relocates the cop onto the suspect's
cell without any occupancy restriction, and a drawn sentence of `0` leaves
the suspect free at the tick boundary, so a reachable between-ticks state
hosts a cop and a free agent in the same cell. -/
theorem claim_C2 (strm : Streams) (ctr : GoCtr) (s : SimState) (t : TRef) (c dst : Coord)
    (hg : (s.movement_enabled ||
      (match t with | TRef.cop _ => true | _ => false)) = true)
    (hch : choose (move_targets s c) (strm.move_ints ctr.moveK) = some dst) :
    move strm ctr s t c =
      (move_turtle s t c dst, { ctr with moveK := ctr.moveK + 1 }) ∧
    ∀ x ∈ cellOcc s dst, ∃ r, x = TRef.agent r ∧ (getAgent s r).jail_term ≠ 0 := by
  constructor
  · simp [move, hg, hch]
  · intro x hx
    obtain ⟨_, hval⟩ := move_targets_mem s c dst (choose_mem _ _ _ hch)
    have hall := (List.all_eq_true.mp hval) x hx
    match x with
    | TRef.agent r =>
        refine ⟨r, rfl, ?_⟩
        simpa using hall
    | TRef.cop i => simp at hall

theorem claim_C2_witness :
    (ce_s1.movement_enabled ||
      (match TRef.cop 0 with | TRef.cop _ => true | _ => false)) = true ∧
    choose (move_targets ce_s1 (0, 1)) (ceStrm.move_ints 0) = some (0, 0) ∧
    (move ceStrm ⟨0, 0, 0, 0, []⟩ ce_s1 (TRef.cop 0) (0, 1) =
      (move_turtle ce_s1 (TRef.cop 0) (0, 1) (0, 0),
        { (⟨0, 0, 0, 0, []⟩ : GoCtr) with moveK := 0 + 1 }) ∧
      ∀ x ∈ cellOcc ce_s1 (0, 0), ∃ r, x = TRef.agent r ∧
        (getAgent ce_s1 r).jail_term ≠ 0) := by
  have h1 : (ce_s1.movement_enabled ||
      (match TRef.cop 0 with | TRef.cop _ => true | _ => false)) = true := by
    with_unfolding_all rfl
  have h2 : choose (move_targets ce_s1 (0, 1)) (ceStrm.move_ints 0) = some (0, 0) := by
    with_unfolding_all rfl
  exact ⟨h1, h2,
    claim_C2 ceStrm ⟨0, 0, 0, 0, []⟩ ce_s1 (TRef.cop 0) (0, 1) (0, 0) h1 h2⟩

/-- The between-ticks no-collision claim is false: after one tick of the
demonstration run (arrest with drawn sentence `0`), cell `(0,1)` of the
reachable state `ce_s1` holds two free actors — the cop and the agent, the
latter free again after the end-of-tick decrement. -/
theorem claim_C2_counterexample :
    Reachable ce_s1 ∧ freeCount ce_s1 (0, 1) = 2 ∧ ¬ NoCollision ce_s1 := by
  refine ⟨reach_ce_s1, ?_, ?_⟩
  · with_unfolding_all rfl
  · intro h
    have h1 := h (0, 1)
    have h2 : freeCount ce_s1 (0, 1) = 2 := by with_unfolding_all rfl
    omega


/-! ### Claim C10: `max_jail_term = 0` raises mid-arrest -/

theorem choose_some {α : Type} (l : List α) (d : ℕ) (h : l ≠ []) :
    ∃ x, choose l d = some x := by
  unfold choose
  have hlen : 0 < l.length := List.length_pos.mpr h
  have hm : d % l.length < l.length := Nat.mod_lt _ hlen
  rw [List.get?_eq_get hm]
  exact ⟨_, rfl⟩

theorem reach_ce0_s0 : Reachable ce0_s0 := by
  refine ⟨1, 0, .float 50, .int 50, .float 7, .float 0, .int 0, .bool false, .bool false,
    ceStrm, ce0_s0, ?_, ?_, ?_, GoChain.refl ce0_s0⟩
  · intro k
    refine ⟨?_, ?_⟩
    · show (0 : ℚ) ≤ 9/10
      norm_num
    · show (9/10 : ℚ) < 1
      norm_num
  · intro k
    refine ⟨?_, ?_⟩
    · show (0 : ℚ) ≤ 0
      norm_num
    · show (0 : ℚ) < 1
      norm_num
  · with_unfolding_all rfl

/-- **C10.** `max_jail_term = 0` is accepted by parameter validation (its
declared range is `0` to `50` inclusive), yet any arrest attempted with it
raises an uncaught `ValueError` from the empty draw `randrange(0)`, and does
so only after the cop has been relocated onto the suspect's cell and the
suspect's active flag cleared — the error carries the partially mutated
state.  Concretely, `go` on the demonstration `max_jail_term = 0` setup
raises exactly this `ValueError`, with the tick not advanced, no report
appended, the cop relocated and the suspect deactivated. -/
theorem claim_C10 :
    validate_value "max_jail_term" (.int 0) PyType.int 0 50 = .ok () ∧
    (∀ (strm : Streams) (ctr : GoCtr) (s : SimState) (t : TRef) (c : Coord),
      s.max_jail_term = 0 → suspects_of s c ≠ [] →
      ∃ sid scoord, (sid, scoord) ∈ suspects_of s c ∧
        (getAgent s sid).active = true ∧
        enforce strm ctr s t c =
          .error (PyErr.valueError "empty range for randrange()",
            arrestState s t c sid scoord) ∧
        amGet (arrestState s t c sid scoord).turtle_coords t = some scoord ∧
        (getAgent (arrestState s t c sid scoord) sid).active = false) ∧
    (Reachable ce0_s0 ∧
      ce0Res = .error (PyErr.valueError "empty range for randrange()", ce0_err) ∧
      ce0_err.tick = ce0_s0.tick ∧ ce0_err.report = ce0_s0.report ∧
      amGet ce0_err.turtle_coords (TRef.cop 0) = some (0, 1) ∧
      (getAgent ce0_err 0).active = false ∧
      ce0_err ≠ ce0_s0) := by
  refine ⟨by with_unfolding_all rfl, ?_, reach_ce0_s0, by with_unfolding_all rfl,
    by with_unfolding_all rfl, by with_unfolding_all rfl, by with_unfolding_all rfl,
    by with_unfolding_all rfl, by with_unfolding_all decide⟩
  intro strm ctr s t c hmjt0 hne
  obtain ⟨⟨sid, scoord⟩, hch⟩ := choose_some (suspects_of s c)
    (strm.suspect_ints ctr.suspectK) hne
  obtain ⟨_, _, hact⟩ := suspects_of_mem s c sid scoord (choose_mem _ _ _ hch)
  have hrr : randrange (arrestState s t c sid scoord).max_jail_term
      (strm.jail_ints ctr.jailK) = .error (.valueError "empty range for randrange()") := by
    have hmjtA : (arrestState s t c sid scoord).max_jail_term = s.max_jail_term := rfl
    unfold randrange
    rw [hmjtA, hmjt0, if_pos (by norm_num)]
  have harr : arrest strm ctr s t c sid scoord =
      .error (PyErr.valueError "empty range for randrange()",
        arrestState s t c sid scoord) := by
    unfold arrest
    rw [hrr]
  have henf : enforce strm ctr s t c = arrest strm ctr s t c sid scoord := by
    unfold enforce
    rw [hch]
  refine ⟨sid, scoord, choose_mem _ _ _ hch, hact, henf.trans harr, ?_, ?_⟩
  · rw [arrestState_turtle_coords]
    exact amGet_amSet_self _ _ _
  · unfold arrestState
    rw [getAgent_setAgent_self]

theorem claim_C10_witness :
    ce0Mid.max_jail_term = 0 ∧ suspects_of ce0Mid (0, 0) ≠ [] ∧
    ∃ sid scoord, (sid, scoord) ∈ suspects_of ce0Mid (0, 0) ∧
      (getAgent ce0Mid sid).active = true ∧
      enforce ceStrm ⟨0, 0, 0, 0, []⟩ ce0Mid (TRef.cop 0) (0, 0) =
        .error (PyErr.valueError "empty range for randrange()",
          arrestState ce0Mid (TRef.cop 0) (0, 0) sid scoord) ∧
      amGet (arrestState ce0Mid (TRef.cop 0) (0, 0) sid scoord).turtle_coords
        (TRef.cop 0) = some scoord ∧
      (getAgent (arrestState ce0Mid (TRef.cop 0) (0, 0) sid scoord) sid).active =
        false := by
  have hm : ce0Mid.max_jail_term = 0 := by with_unfolding_all rfl
  have hs : suspects_of ce0Mid (0, 0) ≠ [] := by with_unfolding_all decide
  exact ⟨hm, hs,
    claim_C10.2.1 ceStrm ⟨0, 0, 0, 0, []⟩ ce0Mid (TRef.cop 0) (0, 0) hm hs⟩

end Rebellion
